import Mathlib

/-!
Verification of the change-extraction and candidate-generation pipeline of the
ai-commit-msg repository. JavaScript strings are modelled as `List Char`;
`undefined`-able values as `Option`; fallible code as `Except`. Definitions are
shallow embeddings of the TypeScript source (src/git.ts, src/masking.ts,
src/ruleset.ts, src/issue.ts and the provider gateway ai.ts); the asynchronous
git collaborator calls are modelled by passing the raw diff / summary texts as
explicit arguments.
-/

namespace AiCommitMsg

/-! ## JavaScript string primitives on List Char -/

/-- Characters treated as whitespace by JavaScript `trim` / `\s`
(the common ASCII subset suffices for the texts modelled here). -/
def jsWhitespace (c : Char) : Bool :=
  c = ' ' || c = '\t' || c = '\n' || c = '\r' || c = '\x0b' || c = '\x0c'

/-- JavaScript `String.prototype.trim`. -/
def jsTrim (s : List Char) : List Char :=
  ((s.dropWhile jsWhitespace).reverse.dropWhile jsWhitespace).reverse

/-- Index of the last `'\n'` in a string (JS `lastIndexOf('\n')`,
`none` standing for `-1`). -/
def lastNewlineIdx (s : List Char) : Option Nat :=
  match s.reverse.findIdx? (fun c => c = '\n') with
  | some j => some (s.length - 1 - j)
  | none => none

/-! ## src/git.ts : truncation (lines 109-119 and 184-194, identical in
`getStagedDiff` and `getUncommittedDiff`) -/

/-- The marker appended after a truncation cut: `'\n... [diff truncated]'`. -/
def truncationMarker : List Char := '\n' :: ("... [diff truncated]".toList)

/-- The truncation step of `getStagedDiff` / `getUncommittedDiff`:
cut to `maxChars`, retreat to the last newline when it lies in the final 20%
of the budget (`lastNewline > maxChars * 0.8`, modelled exactly as
`5 * i > 4 * maxChars`), then append the marker. -/
def truncateDiff (diff : List Char) (maxChars : Nat) : List Char × Bool :=
  if diff.length > maxChars then
    let d := diff.take maxChars
    let d := match lastNewlineIdx d with
      | some i => if 5 * i > 4 * maxChars then d.take i else d
      | none => d
    (d ++ truncationMarker, true)
  else (diff, false)

/-! ## Glob matching (model of the external `minimatch` library with
`matchBase: true`, the subset of its semantics exercised here: `*` and `?`
within a path segment, `**` across segments, patterns without `/` matched
against the base name) -/

/-- Match one glob pattern segment against one path segment
(`*` any run, `?` any single char). -/
def globSegMatch : List Char → List Char → Bool
  | [], [] => true
  | [], _ :: _ => false
  | '*' :: ps, [] => globSegMatch ps []
  | '*' :: ps, c :: ss => globSegMatch ps (c :: ss) || globSegMatch ('*' :: ps) ss
  | '?' :: ps, _ :: ss => globSegMatch ps ss
  | '?' :: _, [] => false
  | p :: ps, c :: ss => (p = c) && globSegMatch ps ss
  | _ :: _, [] => false
  termination_by p s => p.length + s.length

/-- Match glob pattern segments against path segments (`**` spans any
number of segments). -/
def globSegsMatch : List (List Char) → List (List Char) → Bool
  | [], [] => true
  | [], _ :: _ => false
  | p :: ps, [] => if p = ['*', '*'] then globSegsMatch ps [] else false
  | p :: ps, s :: ss =>
      if p = ['*', '*'] then globSegsMatch ps (s :: ss) || globSegsMatch (p :: ps) ss
      else globSegMatch p s && globSegsMatch ps ss
  termination_by p s => p.length + s.length

/-- Model of `minimatch(filePath, pattern, { matchBase: true })`: a pattern without
`/` is matched against the base name, otherwise segment-wise against the
full path. -/
def minimatchBase (filePath pattern : List Char) : Bool :=
  if pattern.contains '/' then
    globSegsMatch (pattern.splitOn '/') (filePath.splitOn '/')
  else
    globSegMatch pattern ((filePath.splitOn '/').getLastD [])

/-! ## src/git.ts lines 10-21 : shouldExcludeFile -/

/-- src/git.ts `shouldExcludeFile`: bare directory names (no `*`, no `/`)
exclude by exact prefix or equality; every pattern is additionally tried as
a glob with `matchBase`. -/
def shouldExcludeFile (filePath : List Char) (excludePatterns : List (List Char)) : Bool :=
  excludePatterns.any fun pattern =>
    (if ¬ pattern.contains '*' && ¬ pattern.contains '/' then
        (pattern ++ ['/']).isPrefixOf filePath || filePath = pattern
      else false)
    || minimatchBase filePath pattern

/-! ## src/git.ts lines 23-47 : filterDiffByPatterns -/

/-- Helper for `splitDiffSections`: cut before every occurrence of
`diff --git` that immediately follows a newline (the `^` of the multiline
split regex; a zero-width match at position 0 produces no cut, matching JS
`split` semantics). `acc` is the reversed current section. -/
def splitDiffSectionsAux : List Char → List Char → List (List Char)
  | [], acc => [acc.reverse]
  | c :: rest, acc =>
      if acc.head? = some '\n' && ("diff --git".toList).isPrefixOf (c :: rest) then
        acc.reverse :: splitDiffSectionsAux rest [c]
      else
        splitDiffSectionsAux rest (c :: acc)

/-- The split `diff.split(/^(?=diff --git)/m)`. -/
def splitDiffSections (diff : List Char) : List (List Char) :=
  splitDiffSectionsAux diff []

/-- Scanning part of `section.match(/^diff --git a\/(.+?) b\//)`: the lazy
`(.+?)` grows one non-newline character at a time until a literal
`' b/'` follows; `acc` is the reversed path collected so far. -/
def findDiffPathEnd : List Char → List Char → Option (List Char)
  | acc, rest =>
      if acc ≠ [] && (" b/".toList).isPrefixOf rest then some acc.reverse
      else
        match rest with
        | [] => none
        | c :: rs => if c = '\n' then none else findDiffPathEnd (c :: acc) rs

/-- Extract the declared file path from a diff section header via the
anchored regex `^diff --git a\/(.+?) b\//`. -/
def parseDiffPath (s : List Char) : Option (List Char) :=
  if ("diff --git a/".toList).isPrefixOf s then
    findDiffPathEnd [] (s.drop ("diff --git a/".toList).length)
  else none

/-- The filter predicate applied to each section by `filterDiffByPatterns`:
whitespace-only sections are dropped, unparsable sections kept,
parsed sections kept unless excluded. -/
def keepSection (excludePatterns : List (List Char)) (s : List Char) : Bool :=
  if jsTrim s = [] then false
  else
    match parseDiffPath s with
    | none => true
    | some p => ¬ shouldExcludeFile p excludePatterns

/-- src/git.ts `filterDiffByPatterns`. -/
def filterDiffByPatterns (diff : List Char) (excludePatterns : List (List Char)) : List Char :=
  if diff = [] || excludePatterns = [] then diff
  else ((splitDiffSections diff).filter (keepSection excludePatterns)).flatten

/-! ## src/git.ts lines 49-71 : filterFileSummary -/

/-- The filter predicate on summary lines: blank lines dropped, lines
without a TAB-separated path kept, lines with an excluded path dropped. -/
def keepSummaryLine (excludePatterns : List (List Char)) (line : List Char) : Bool :=
  if jsTrim line = [] then false
  else
    match (line.splitOn '\t').get? 1 with
    | none => true
    | some filePath => ¬ shouldExcludeFile filePath excludePatterns

/-- src/git.ts `filterFileSummary`. -/
def filterFileSummary (summary : List Char) (excludePatterns : List (List Char)) : List Char :=
  if summary = [] || excludePatterns = [] then summary
  else List.intercalate ['\n'] ((summary.splitOn '\n').filter (keepSummaryLine excludePatterns))

/-! ## A small backtracking regex engine

Model of the JavaScript `RegExp` semantics used by src/masking.ts and
src/issue.ts: ordered alternation, greedy and lazy repetition, character
predicates, capture groups, lookahead and (variable-length) lookbehind.
Matching is fuel-bounded; the fuel passed by the wrappers below is ample for
every concrete text these definitions are evaluated on. -/

inductive Regex where
  | eps
  | chr (p : Char → Bool)
  | seq (a b : Regex)
  | alt (a b : Regex)
  | starG (r : Regex)
  | starL (r : Regex)
  | look (r : Regex)
  | lookb (r : Regex)
  | group (i : Nat) (r : Regex)

/-- Matcher state: `prev` is the reversed text consumed so far (of the whole
input, so lookbehind sees the original text), `rest` the remaining text,
`caps` the captures recorded so far. -/
structure MatchState where
  prev : List Char
  rest : List Char
  caps : List (Nat × List Char)

/-- CPS backtracking matcher. Ordered choice gives the JS preference order
(leftmost alternative first, greedy prefers consuming, lazy prefers not).
A star only iterates when its body consumed input, matching the JS
empty-loop cutoff. A `lookb` node stores its pattern already reversed (see
`rlookb`): `(?<=r)` holds when `r` matches some substring ending exactly at
the current position, i.e. when the reversed pattern matches some prefix of
the reversed consumed text. -/
def matchR : Nat → Regex → MatchState → (MatchState → Option MatchState) → Option MatchState
  | 0, _, _, _ => none
  | fuel + 1, r, st, k =>
    match r with
    | .eps => k st
    | .chr p =>
        match st.rest with
        | [] => none
        | c :: cs => if p c then k ⟨c :: st.prev, cs, st.caps⟩ else none
    | .seq a b => matchR fuel a st (fun st2 => matchR fuel b st2 k)
    | .alt a b => (matchR fuel a st k) <|> (matchR fuel b st k)
    | .starG r1 =>
        (matchR fuel r1 st (fun st2 =>
          if st2.rest.length < st.rest.length then matchR fuel (.starG r1) st2 k
          else k st2)) <|> k st
    | .starL r1 =>
        (k st) <|> matchR fuel r1 st (fun st2 =>
          if st2.rest.length < st.rest.length then matchR fuel (.starL r1) st2 k
          else none)
    | .look r1 =>
        match matchR fuel r1 st some with
        | some _ => k st
        | none => none
    | .lookb r1 =>
        if (matchR fuel r1 ⟨[], st.prev, []⟩ some).isSome then k st
        else none
    | .group i r1 =>
        matchR fuel r1 st (fun st2 =>
          let n := st2.prev.length - st.prev.length
          k ⟨st2.prev, st2.rest, (i, (st2.prev.take n).reverse) :: st2.caps⟩)

/-- Fuel used by every wrapper; ample for the texts evaluated here. -/
def engineFuel : Nat := 2000

/-- Attempt a match anchored at the position described by `(prev, rest)`. -/
def tryMatchAt (r : Regex) (prev rest : List Char) : Option MatchState :=
  matchR engineFuel r ⟨prev, rest, []⟩ some

/-- Global replace, JS `String.replace` with a `g`-flagged regex: scan left
to right over the original text, replace each (leftmost, preferred) match,
resume after the match; a zero-width match emits one character and advances. -/
def replaceAllAux (r : Regex) (repl : List Char) : Nat → List Char → List Char → List Char
  | 0, _, _ => []
  | fuel + 1, prev, rest =>
      match tryMatchAt r prev rest with
      | some st =>
          let n := st.prev.length - prev.length
          if n = 0 then
            match rest with
            | [] => []
            | c :: cs => c :: replaceAllAux r repl fuel (c :: prev) cs
          else repl ++ replaceAllAux r repl fuel st.prev st.rest
      | none =>
          match rest with
          | [] => []
          | c :: cs => c :: replaceAllAux r repl fuel (c :: prev) cs

/-- JS `text.replace(pattern, replacement)` for a global pattern. -/
def replaceAll (r : Regex) (repl : List Char) (text : List Char) : List Char :=
  replaceAllAux r repl (text.length + 1) [] text

/-- First match of a non-global regex anywhere in the text (JS
`String.match`): the full matched text and the captures. -/
def jsMatchFirstAux (r : Regex) : Nat → List Char → List Char →
    Option (List Char × List (Nat × List Char))
  | 0, _, _ => none
  | fuel + 1, prev, rest =>
      match tryMatchAt r prev rest with
      | some st =>
          let n := st.prev.length - prev.length
          some ((st.prev.take n).reverse, st.caps)
      | none =>
          match rest with
          | [] => none
          | c :: cs => jsMatchFirstAux r fuel (c :: prev) cs

/-- JS `text.match(regex)` without the `g` flag. -/
def jsMatchFirst (r : Regex) (text : List Char) : Option (List Char × List (Nat × List Char)) :=
  jsMatchFirstAux r (text.length + 1) [] text

/-! ### Regex construction helpers -/

def rseq (rs : List Regex) : Regex := rs.foldr .seq .eps

def ralts : List Regex → Regex
  | [] => .chr (fun _ => false)
  | [r] => r
  | r :: rs => .alt r (ralts rs)

/-- Greedy `r?`. -/
def ropt (r : Regex) : Regex := .alt r .eps

/-- Greedy `r+`. -/
def rplus (r : Regex) : Regex := .seq r (.starG r)

/-- Exact repetition `r{n}`. -/
def rrep (n : Nat) (r : Regex) : Regex := rseq (List.replicate n r)

/-- Greedy `r{n,}`. -/
def ratLeast (n : Nat) (r : Regex) : Regex := .seq (rrep n r) (.starG r)

/-- Greedy `r{0,n}`. -/
def rupto : Nat → Regex → Regex
  | 0, _ => .eps
  | n + 1, r => .alt (.seq r (rupto n r)) .eps

/-- Greedy `r{lo,hi}`. -/
def rbetween (lo hi : Nat) (r : Regex) : Regex := .seq (rrep lo r) (rupto (hi - lo) r)

/-- Case-sensitive literal. -/
def rlit (s : List Char) : Regex := rseq (s.map (fun c => .chr (fun d => d = c)))

/-- Case-insensitive literal (the `i` flag). -/
def rlitci (s : List Char) : Regex :=
  rseq (s.map (fun c => .chr (fun d => d.toLower = c.toLower)))

/-- Structural reversal of a regex: matches exactly the reversed strings of
the original's matches (used to run lookbehind patterns right to left). -/
def rrev : Regex → Regex
  | .eps => .eps
  | .chr p => .chr p
  | .seq a b => .seq (rrev b) (rrev a)
  | .alt a b => .alt (rrev a) (rrev b)
  | .starG r => .starG (rrev r)
  | .starL r => .starL (rrev r)
  | .look r => .look r
  | .lookb r => .lookb r
  | .group i r => .group i (rrev r)

/-- Lookbehind `(?<=r)`: store the reversed pattern, which the matcher runs
against the reversed consumed prefix. -/
def rlookb (r : Regex) : Regex := .lookb (rrev r)

/-! ## src/masking.ts : the MASK_PATTERNS table -/

/-- Class `[=:]`. -/
def eqColCh (c : Char) : Bool := c = '=' || c = ':'

/-- Class `["']`. -/
def quoteCh (c : Char) : Bool := c = '"' || c = '\''

/-- Class `[_-]`. -/
def underDashCh (c : Char) : Bool := c = '_' || c = '-'

/-- Class `\s`. -/
def wspR : Regex := .chr jsWhitespace

/-- Class `[A-Za-z0-9/+=]` (AWS secret shape). -/
def b64Ch (c : Char) : Bool := c.isAlphanum || c = '/' || c = '+' || c = '='

/-- Class `[A-Za-z0-9+/=\n]` (SSH key body). -/
def b64NlCh (c : Char) : Bool := b64Ch c || c = '\n'

/-- Class `[a-zA-Z0-9_\-]` (word-and-dash). -/
def wordDashCh (c : Char) : Bool := c.isAlphanum || c = '_' || c = '-'

/-- Class `[^\s"'<>]` (connection-string tail). -/
def urlCh (c : Char) : Bool :=
  !(jsWhitespace c) && !(c = '"') && !(c = '\'') && !(c = '<') && !(c = '>')

/-- Class `[^"'\s\n]` (password value). -/
def passCh (c : Char) : Bool := !(c = '"') && !(c = '\'') && !(jsWhitespace c)

/-- Class `[0-9a-fA-F]`. -/
def hexCh (c : Char) : Bool :=
  c.isDigit || ('a' ≤ c && c ≤ 'f') || ('A' ≤ c && c ≤ 'F')

/-- Subpattern `(?:RSA\s+|EC\s+|DSA\s+|OPENSSH\s+)?` of the PEM rule. -/
def pemLabel : Regex :=
  ropt (ralts [rseq [rlitci ("RSA".toList), rplus wspR],
               rseq [rlitci ("EC".toList), rplus wspR],
               rseq [rlitci ("DSA".toList), rplus wspR],
               rseq [rlitci ("OPENSSH".toList), rplus wspR]])

/-- Lookbehind tail `\s*[=:]\s*["']?` shared by the assignment rules. -/
def assignTail : Regex :=
  rseq [.starG wspR, .chr eqColCh, .starG wspR, ropt (.chr quoteCh)]

/-- src/masking.ts `MASK_PATTERNS`: the ordered, immutable
(pattern, replacement) table, transcribed rule by rule. -/
def MASK_PATTERNS : List (Regex × List Char) := [
  -- 1: private keys (PEM format), /gi
  (rseq [rlitci ("-----BEGIN".toList), rplus wspR, pemLabel,
         rlitci ("PRIVATE".toList), rplus wspR, rlitci ("KEY-----".toList),
         .starL (.chr (fun _ => true)),
         rlitci ("-----END".toList), rplus wspR, pemLabel,
         rlitci ("PRIVATE".toList), rplus wspR, rlitci ("KEY-----".toList)],
   "[PRIVATE_KEY]".toList),
  -- 2: OpenAI API keys /sk-[a-zA-Z0-9]{20,}/g
  (rseq [rlit ("sk-".toList), ratLeast 20 (.chr Char.isAlphanum)],
   "[OPENAI_API_KEY]".toList),
  -- 3: Groq API keys /gsk_[a-zA-Z0-9]{20,}/g
  (rseq [rlit ("gsk_".toList), ratLeast 20 (.chr Char.isAlphanum)],
   "[GROQ_API_KEY]".toList),
  -- 4: AWS access key IDs /AKIA[0-9A-Z]{16}/g
  (rseq [rlit ("AKIA".toList), rrep 16 (.chr (fun c => c.isDigit || c.isUpper))],
   "[AWS_ACCESS_KEY]".toList),
  -- 5: AWS secret keys /(?<=aws_secret_access_key\s*[=:]\s*["']?)[A-Za-z0-9/+=]{40}(?=["']?)/gi
  (rseq [rlookb (rseq [rlitci ("aws_secret_access_key".toList), assignTail]),
         rrep 40 (.chr b64Ch), .look (ropt (.chr quoteCh))],
   "[AWS_SECRET_KEY]".toList),
  -- 6: Google API keys /AIza[0-9A-Za-z_-]{35}/g
  (rseq [rlit ("AIza".toList), rrep 35 (.chr wordDashCh)],
   "[GOOGLE_API_KEY]".toList),
  -- 7: GitHub tokens /gh[pousr]_[A-Za-z0-9_]{36,}/g
  (rseq [rlit ("gh".toList),
         .chr (fun c => c = 'p' || c = 'o' || c = 'u' || c = 's' || c = 'r'),
         rlit ("_".toList),
         ratLeast 36 (.chr (fun c => c.isAlphanum || c = '_'))],
   "[GITHUB_TOKEN]".toList),
  -- 8: generic API keys /(?<=(?:api[_-]?key|apikey|api[_-]?secret)\s*[=:]\s*["']?)[a-zA-Z0-9_\-]{16,}(?=["']?)/gi
  (rseq [rlookb (rseq [ralts [rseq [rlitci ("api".toList), ropt (.chr underDashCh), rlitci ("key".toList)],
                              rlitci ("apikey".toList),
                              rseq [rlitci ("api".toList), ropt (.chr underDashCh), rlitci ("secret".toList)]],
                       assignTail]),
         ratLeast 16 (.chr wordDashCh), .look (ropt (.chr quoteCh))],
   "[API_KEY]".toList),
  -- 9: bearer tokens /(?<=Bearer\s+)[a-zA-Z0-9_\-\.]{20,}/gi
  (rseq [rlookb (rseq [rlitci ("Bearer".toList), rplus wspR]),
         ratLeast 20 (.chr (fun c => wordDashCh c || c = '.'))],
   "[BEARER_TOKEN]".toList),
  -- 10: JWT tokens /eyJ[a-zA-Z0-9_-]*\.eyJ[a-zA-Z0-9_-]*\.[a-zA-Z0-9_-]*/g
  (rseq [rlit ("eyJ".toList), .starG (.chr wordDashCh), rlit (".".toList),
         rlit ("eyJ".toList), .starG (.chr wordDashCh), rlit (".".toList),
         .starG (.chr wordDashCh)],
   "[JWT_TOKEN]".toList),
  -- 11: generic tokens /(?<=(?:access[_-]?token|auth[_-]?token|token)\s*[=:]\s*["']?)[a-zA-Z0-9_\-]{20,}(?=["']?)/gi
  (rseq [rlookb (rseq [ralts [rseq [rlitci ("access".toList), ropt (.chr underDashCh), rlitci ("token".toList)],
                              rseq [rlitci ("auth".toList), ropt (.chr underDashCh), rlitci ("token".toList)],
                              rlitci ("token".toList)],
                       assignTail]),
         ratLeast 20 (.chr wordDashCh), .look (ropt (.chr quoteCh))],
   "[TOKEN]".toList),
  -- 12: passwords /(?<=(?:password|passwd|pwd|pass)\s*[=:]\s*["']?)[^"'\s\n]{4,}(?=["']?)/gi
  (rseq [rlookb (rseq [ralts [rlitci ("password".toList), rlitci ("passwd".toList),
                              rlitci ("pwd".toList), rlitci ("pass".toList)],
                       assignTail]),
         ratLeast 4 (.chr passCh), .look (ropt (.chr quoteCh))],
   "[PASSWORD]".toList),
  -- 13: secrets /(?<=(?:secret|secret[_-]?key|client[_-]?secret)\s*[=:]\s*["']?)[a-zA-Z0-9_\-]{8,}(?=["']?)/gi
  (rseq [rlookb (rseq [ralts [rlitci ("secret".toList),
                              rseq [rlitci ("secret".toList), ropt (.chr underDashCh), rlitci ("key".toList)],
                              rseq [rlitci ("client".toList), ropt (.chr underDashCh), rlitci ("secret".toList)]],
                       assignTail]),
         ratLeast 8 (.chr wordDashCh), .look (ropt (.chr quoteCh))],
   "[SECRET]".toList),
  -- 14: MongoDB /mongodb(?:\+srv)?:\/\/[^\s"'<>]+/gi
  (rseq [rlitci ("mongodb".toList), ropt (rlitci ("+srv".toList)),
         rlitci ("://".toList), rplus (.chr urlCh)],
   "[MONGODB_CONNECTION_STRING]".toList),
  -- 15: PostgreSQL /postgres(?:ql)?:\/\/[^\s"'<>]+/gi
  (rseq [rlitci ("postgres".toList), ropt (rlitci ("ql".toList)),
         rlitci ("://".toList), rplus (.chr urlCh)],
   "[POSTGRES_CONNECTION_STRING]".toList),
  -- 16: MySQL /mysql:\/\/[^\s"'<>]+/gi
  (rseq [rlitci ("mysql://".toList), rplus (.chr urlCh)],
   "[MYSQL_CONNECTION_STRING]".toList),
  -- 17: Redis /redis(?:s)?:\/\/[^\s"'<>]+/gi
  (rseq [rlitci ("redis".toList), ropt (rlitci ("s".toList)),
         rlitci ("://".toList), rplus (.chr urlCh)],
   "[REDIS_CONNECTION_STRING]".toList),
  -- 18: generic database /(?:jdbc|odbc):\/\/[^\s"'<>]+/gi
  (rseq [ralts [rlitci ("jdbc".toList), rlitci ("odbc".toList)],
         rlitci ("://".toList), rplus (.chr urlCh)],
   "[DATABASE_CONNECTION_STRING]".toList),
  -- 19: credentials before an IP host /(?<=:\/\/)[^:]+:[^@]+@(?=\d{1,3}\.\d{1,3}\.\d{1,3}\.\d{1,3})/g
  (rseq [rlookb (rlit ("://".toList)),
         rplus (.chr (fun c => !(c = ':'))), .chr (fun c => c = ':'),
         rplus (.chr (fun c => !(c = '@'))), .chr (fun c => c = '@'),
         .look (rseq [rbetween 1 3 (.chr Char.isDigit), rlit (".".toList),
                      rbetween 1 3 (.chr Char.isDigit), rlit (".".toList),
                      rbetween 1 3 (.chr Char.isDigit), rlit (".".toList),
                      rbetween 1 3 (.chr Char.isDigit)])],
   "[CREDENTIALS]@".toList),
  -- 20: Slack webhooks /https:\/\/hooks\.slack\.com\/services\/[A-Za-z0-9/]+/g
  (rseq [rlit ("https://hooks.slack.com/services/".toList),
         rplus (.chr (fun c => c.isAlphanum || c = '/'))],
   "[SLACK_WEBHOOK]".toList),
  -- 21: Discord webhooks /https:\/\/discord(?:app)?\.com\/api\/webhooks\/[0-9]+\/[A-Za-z0-9_-]+/g
  (rseq [rlit ("https://discord".toList), ropt (rlit ("app".toList)),
         rlit (".com/api/webhooks/".toList), rplus (.chr Char.isDigit),
         rlit ("/".toList), rplus (.chr wordDashCh)],
   "[DISCORD_WEBHOOK]".toList),
  -- 22: Stripe secret keys /sk_(?:live|test)_[0-9a-zA-Z]{24,}/g
  (rseq [rlit ("sk_".toList), ralts [rlit ("live".toList), rlit ("test".toList)],
         rlit ("_".toList), ratLeast 24 (.chr Char.isAlphanum)],
   "[STRIPE_SECRET_KEY]".toList),
  -- 23: Stripe publishable keys /pk_(?:live|test)_[0-9a-zA-Z]{24,}/g
  (rseq [rlit ("pk_".toList), ralts [rlit ("live".toList), rlit ("test".toList)],
         rlit ("_".toList), ratLeast 24 (.chr Char.isAlphanum)],
   "[STRIPE_PUBLISHABLE_KEY]".toList),
  -- 24: Twilio API keys /SK[0-9a-fA-F]{32}/g
  (rseq [rlit ("SK".toList), rrep 32 (.chr hexCh)],
   "[TWILIO_API_KEY]".toList),
  -- 25: SendGrid API keys /SG\.[a-zA-Z0-9_-]{22}\.[a-zA-Z0-9_-]{43}/g
  (rseq [rlit ("SG.".toList), rrep 22 (.chr wordDashCh), rlit (".".toList),
         rrep 43 (.chr wordDashCh)],
   "[SENDGRID_API_KEY]".toList),
  -- 26: Mailgun API keys /key-[0-9a-zA-Z]{32}/g
  (rseq [rlit ("key-".toList), rrep 32 (.chr Char.isAlphanum)],
   "[MAILGUN_API_KEY]".toList),
  -- 27: npm tokens /npm_[A-Za-z0-9]{36}/g
  (rseq [rlit ("npm_".toList), rrep 36 (.chr Char.isAlphanum)],
   "[NPM_TOKEN]".toList),
  -- 28: Heroku API keys /(?<=HEROKU_API_KEY\s*[=:]\s*["']?)[0-9a-fA-F-]{36}(?=["']?)/gi
  (rseq [rlookb (rseq [rlitci ("HEROKU_API_KEY".toList), assignTail]),
         rrep 36 (.chr (fun c => hexCh c || c = '-')), .look (ropt (.chr quoteCh))],
   "[HEROKU_API_KEY]".toList),
  -- 29: SSH key body /(?<=-----BEGIN[^-]+-----\n)([A-Za-z0-9+/=\n]+)(?=\n-----END)/g
  (rseq [rlookb (rseq [rlit ("-----BEGIN".toList), rplus (.chr (fun c => !(c = '-'))),
                       rlit ("-----".toList), rlit ("\n".toList)]),
         .group 1 (rplus (.chr b64NlCh)),
         .look (rseq [rlit ("\n".toList), rlit ("-----END".toList)])],
   "[KEY_CONTENT_REDACTED]".toList)]

/-- src/masking.ts `maskSensitiveInfo`: apply every rule, in order, as a
global replacement over the whole text. -/
def maskSensitiveInfo (text : List Char) : List Char :=
  MASK_PATTERNS.foldl (fun masked pr => replaceAll pr.1 pr.2 masked) text

/-! ## src/git.ts lines 85-126 : getStagedDiff

The two `git.diff` collaborator calls are modelled by passing their results
(`rawDiff`, `rawSummary`) as arguments. -/

structure DiffResult where
  diff : List Char
  fileSummary : List Char
  truncated : Bool

/-- src/git.ts `getStagedDiff`: filter, mask (when enabled), truncate. -/
def getStagedDiff (rawDiff rawSummary : List Char) (maxChars : Nat)
    (excludePatterns : List (List Char)) (shouldMaskSensitive : Bool) : DiffResult :=
  let diff0 := filterDiffByPatterns rawDiff excludePatterns
  let fileSummary := filterFileSummary rawSummary excludePatterns
  let diff1 := if shouldMaskSensitive then maskSensitiveInfo diff0 else diff0
  let res := truncateDiff diff1 maxChars
  ⟨res.1, fileSummary, res.2⟩

/-! ## src/git.ts lines 147-202 : getUncommittedDiff -/

/-- Lines 163-166: append the unstaged diff (when its trim is non-empty)
after the staged diff, separated by a newline when the staged diff is
non-empty. -/
def combineRawDiff (stagedDiff unstagedDiff : List Char) : List Char :=
  if jsTrim unstagedDiff ≠ [] then
    stagedDiff ++ (if stagedDiff ≠ [] then ['\n'] else []) ++ unstagedDiff
  else stagedDiff

/-- Lines 169-173: split both summaries on newlines, drop blank lines, and
deduplicate preserving first-insertion order (the JS `Set`). -/
def dedupeSummaryLines (stagedSummary unstagedSummary : List Char) : List (List Char) :=
  (((stagedSummary.splitOn '\n').filter (fun l => jsTrim l ≠ ([] : List Char))) ++
    ((unstagedSummary.splitOn '\n').filter (fun l => jsTrim l ≠ ([] : List Char)))).foldl
    (fun acc l => if acc.contains l then acc else acc ++ [l]) []

/-- The combined, deduplicated raw summary text of `getUncommittedDiff`. -/
def combineRawSummary (stagedSummary unstagedSummary : List Char) : List Char :=
  List.intercalate ['\n'] (dedupeSummaryLines stagedSummary unstagedSummary)

/-- src/git.ts `getUncommittedDiff`: combine staged and unstaged texts, then
filter, mask (when enabled), truncate — as in `getStagedDiff`. -/
def getUncommittedDiff (stagedDiff unstagedDiff stagedSummary unstagedSummary : List Char)
    (maxChars : Nat) (excludePatterns : List (List Char))
    (shouldMaskSensitive : Bool) : DiffResult :=
  let rawDiff := combineRawDiff stagedDiff unstagedDiff
  let rawSummary := combineRawSummary stagedSummary unstagedSummary
  let diff0 := filterDiffByPatterns rawDiff excludePatterns
  let fileSummary := filterFileSummary rawSummary excludePatterns
  let diff1 := if shouldMaskSensitive then maskSensitiveInfo diff0 else diff0
  let res := truncateDiff diff1 maxChars
  ⟨res.1, fileSummary, res.2⟩

/-! ## Untrusted JSON values

Model of the values `JSON.parse` can return; used by the response validators
and by the policy-file sanitizer, which both operate on untrusted data at
runtime (TypeScript types are erased). -/

inductive JsonValue where
  | str (s : List Char)
  | num (n : Int)
  | bool (b : Bool)
  | null
  | arr (xs : List JsonValue)
  | obj (fields : List (List Char × JsonValue))

/-- Field access `obj.key` on a parsed JSON value (distinct keys assumed,
as produced by `JSON.parse`). -/
def jlookup (fields : List (List Char × JsonValue)) (key : List Char) : Option JsonValue :=
  (fields.find? (fun f => f.1 = key)).map (fun f => f.2)

/-- The check `typeof data === 'object' && data !== null`, exposing the named fields:
an array is an object whose named properties are all `undefined`. -/
def jsObjFields : JsonValue → Option (List (List Char × JsonValue))
  | .obj fields => some fields
  | .arr _ => some []
  | _ => none

/-! ## src/types.ts and ai.ts : commit message candidates -/

/-- src/types.ts `VALID_COMMIT_TYPES`. The `type` field is kept as a string:
at runtime the TypeScript `CommitType` union is erased and the enumeration
check below is all that constrains it. -/
def VALID_COMMIT_TYPES : List (List Char) :=
  ["feat".toList, "fix".toList, "docs".toList, "style".toList, "refactor".toList,
   "perf".toList, "test".toList, "build".toList, "ci".toList, "chore".toList]

structure CommitMessage where
  type : List Char
  scope : Option (List Char)
  subject : List Char
deriving DecidableEq

/-- ai.ts lines 87-101: the subject normalization of
`validateSingleCommitMessage` — trim, strip one trailing period, lower-case
the first character when it is an ASCII letter, truncate to 69 characters
plus an ellipsis when longer than 72. -/
def normalizeSubject (raw : List Char) : List Char :=
  let subject := jsTrim raw
  let subject := if subject.getLast? = some '.' then subject.dropLast else subject
  let subject :=
    match subject with
    | [] => []
    | c :: cs => if c.isAlpha then c.toLower :: cs else c :: cs
  if subject.length > 72 then subject.take 69 ++ ("...".toList) else subject

/-- ai.ts line 106: `typeof obj.scope === 'string' && obj.scope.trim() ?
obj.scope.trim() : undefined`. -/
def validatedScope (v : Option JsonValue) : Option (List Char) :=
  match v with
  | some (.str sc) => if jsTrim sc ≠ [] then some (jsTrim sc) else none
  | _ => none

/-- ai.ts lines 68-109 `validateSingleCommitMessage`: reject non-objects,
non-string or non-enumerated `type`, and missing/blank `subject`; normalize
the accepted candidate. -/
def validateSingleCommitMessage (data : JsonValue) : Except (List Char) CommitMessage :=
  match jsObjFields data with
  | none => .error ("Response is not an object".toList)
  | some fields =>
      match jlookup fields ("type".toList) with
      | some (.str t) =>
          if VALID_COMMIT_TYPES.contains t then
            match jlookup fields ("subject".toList) with
            | some (.str s) =>
                if (jsTrim s).length = 0 then
                  .error ("Missing or invalid \"subject\" field".toList)
                else
                  .ok ⟨t, validatedScope (jlookup fields ("scope".toList)), normalizeSubject s⟩
            | _ => .error ("Missing or invalid \"subject\" field".toList)
          else .error (("Invalid commit type: ".toList) ++ t)
      | _ => .error ("Missing or invalid \"type\" field".toList)

/-- ai.ts lines 126-132: validate each candidate in order, wrapping the
first failure with its 1-based index (the JS `map` aborts at the first
throw). -/
def validateCandidatesFrom : Nat → List JsonValue → Except (List Char) (List CommitMessage)
  | _, [] => .ok []
  | i, c :: cs =>
      match validateSingleCommitMessage c with
      | .ok m => (validateCandidatesFrom (i + 1) cs).map (fun ms => m :: ms)
      | .error e =>
          .error (("Invalid candidate ".toList) ++ (toString (i + 1)).toList ++ (": ".toList) ++ e)

/-- ai.ts lines 111-133 `validateCommitMessageCandidates`: require a
non-empty `candidates` array, keep at most the first 3, validate each. -/
def validateCommitMessageCandidates (data : JsonValue) : Except (List Char) (List CommitMessage) :=
  match jsObjFields data with
  | none => .error ("Response is not an object".toList)
  | some fields =>
      match jlookup fields ("candidates".toList) with
      | some (.arr cands) =>
          if cands.length < 1 then .error ("No candidates provided".toList)
          else validateCandidatesFrom 0 (cands.take 3)
      | _ => .error ("Missing or invalid \"candidates\" array".toList)

/-! ## ai.ts lines 444-465 : generateCommitMessageCandidates (retry) -/

def retryContextPrefix : List Char :=
  "Failed to generate commit messages after retry: ".toList

/-- ai.ts `generateCommitMessageCandidates`: one attempt, one retry with the
identical arguments, the second failure wrapped with the operation context.
`call n args` is the outcome of the `n`-th invocation of
`callProviderForCandidates`; the returned `Nat` instruments the definition
with the number of provider attempts observed, which in the source is the
number of `callProviderForCandidates` call sites reached. -/
def generateCommitMessageCandidates {A R : Type} (call : Nat → A → Except (List Char) R)
    (args : A) : Except (List Char) R × Nat :=
  match call 0 args with
  | .ok r => (.ok r, 1)
  | .error _ =>
      match call 1 args with
      | .ok r => (.ok r, 2)
      | .error msg => (.error (retryContextPrefix ++ msg), 2)

/-! ## src/ruleset.ts -/

inductive Language where
  | english
  | korean
deriving DecidableEq

structure CommitRuleset where
  allowedTypes : Option (List (List Char)) := none
  requireScope : Option Bool := none
  allowedScopes : Option (List (List Char)) := none
  maxSubjectLength : Option Int := none
  subjectPrefix : Option (List Char) := none
  language : Option Language := none
  customPrompt : Option (List Char) := none
deriving DecidableEq

/-- The policy file as seen by `loadRuleset`: absent, present but not valid
JSON (`JSON.parse` throws), or parsed to a JSON value. The filesystem reads
of src/ruleset.ts lines 22-28 are modelled by this argument. -/
inductive PolicyFile where
  | missing
  | unparsable
  | parsed (v : JsonValue)

/-- ruleset.ts lines 48-55: keep only strings drawn from
`VALID_COMMIT_TYPES`; drop the field when none survive. -/
def sanitizeAllowedTypes (v : Option JsonValue) : Option (List (List Char)) :=
  match v with
  | some (.arr xs) =>
      let valid := xs.filterMap (fun x =>
        match x with
        | .str t => if VALID_COMMIT_TYPES.contains t then some t else none
        | _ => none)
      if valid.length > 0 then some valid else none
  | _ => none

/-- ruleset.ts lines 57-60: keep only a boolean. -/
def sanitizeRequireScope (v : Option JsonValue) : Option Bool :=
  match v with
  | some (.bool b) => some b
  | _ => none

/-- ruleset.ts lines 62-70: keep only non-blank strings; drop the field when
none survive. -/
def sanitizeAllowedScopes (v : Option JsonValue) : Option (List (List Char)) :=
  match v with
  | some (.arr xs) =>
      let valid := xs.filterMap (fun x =>
        match x with
        | .str s => if (jsTrim s).length > 0 then some s else none
        | _ => none)
      if valid.length > 0 then some valid else none
  | _ => none

/-- ruleset.ts lines 72-75: keep only a positive number, capped at 200. -/
def sanitizeMaxSubjectLength (v : Option JsonValue) : Option Int :=
  match v with
  | some (.num n) => if n > 0 then some (min n 200) else none
  | _ => none

/-- ruleset.ts lines 77-80: keep only a non-blank string, trimmed. -/
def sanitizeSubjectPrefix (v : Option JsonValue) : Option (List Char) :=
  match v with
  | some (.str s) => if (jsTrim s).length > 0 then some (jsTrim s) else none
  | _ => none

/-- ruleset.ts lines 82-85: keep only the literals `english` / `korean`. -/
def sanitizeLanguage (v : Option JsonValue) : Option Language :=
  match v with
  | some (.str s) =>
      if s = ("english".toList) then some .english
      else if s = ("korean".toList) then some .korean
      else none
  | _ => none

/-- ruleset.ts lines 87-90: keep only a non-blank string, trimmed. -/
def sanitizeCustomPrompt (v : Option JsonValue) : Option (List Char) :=
  match v with
  | some (.str s) => if (jsTrim s).length > 0 then some (jsTrim s) else none
  | _ => none

/-- ruleset.ts lines 39-93 `validateRuleset`: non-objects and `null` are
rejected whole; an object is sanitized field by field (an array is a JS
object whose named fields are all `undefined`). -/
def validateRuleset : JsonValue → Option CommitRuleset
  | .obj fields =>
      some {
        allowedTypes := sanitizeAllowedTypes (jlookup fields ("allowedTypes".toList)),
        requireScope := sanitizeRequireScope (jlookup fields ("requireScope".toList)),
        allowedScopes := sanitizeAllowedScopes (jlookup fields ("allowedScopes".toList)),
        maxSubjectLength := sanitizeMaxSubjectLength (jlookup fields ("maxSubjectLength".toList)),
        subjectPrefix := sanitizeSubjectPrefix (jlookup fields ("subjectPrefix".toList)),
        language := sanitizeLanguage (jlookup fields ("language".toList)),
        customPrompt := sanitizeCustomPrompt (jlookup fields ("customPrompt".toList)) }
  | .arr _ => some {}
  | _ => none

/-- ruleset.ts lines 18-37 `loadRuleset`: a missing file and a file
`JSON.parse` rejects both yield `none` ("no ruleset"); a parsed value is
sanitized by `validateRuleset`. -/
def loadRuleset : PolicyFile → Option CommitRuleset
  | .missing => none
  | .unparsable => none
  | .parsed v => validateRuleset v

/-! ### ruleset.ts lines 95-142 : validateAgainstRuleset

The sequence of `errors.push` calls is translated as the concatenation of
one (possibly empty) contribution per check, in source order. -/

/-- Truthiness of an optional boolean (`undefined` is falsy). -/
def truthyB : Option Bool → Bool
  | some b => b
  | none => false

/-- Truthiness of an optional string (`undefined` and `''` are falsy). -/
def scopeTruthy : Option (List Char) → Bool
  | some s => s ≠ []
  | none => false

/-- Line 125: `ruleset.maxSubjectLength || 72` — `undefined` and `0` both
fall back to 72. -/
def effectiveMaxLength (r : CommitRuleset) : Int :=
  match r.maxSubjectLength with
  | some n => if n = 0 then 72 else n
  | none => 72

def typeNotAllowedMsg (t : List Char) (ts : List (List Char)) : List Char :=
  ("Type \"".toList) ++ t ++ ("\" is not allowed. Allowed types: ".toList) ++
    List.intercalate (", ".toList) ts

def scopeRequiredMsg : List Char := "Scope is required by team ruleset".toList

def scopeNotAllowedMsg (sc : List Char) (ss : List (List Char)) : List Char :=
  ("Scope \"".toList) ++ sc ++ ("\" is not allowed. Allowed scopes: ".toList) ++
    List.intercalate (", ".toList) ss

def subjectLengthMsg (maxLength current : Int) : List Char :=
  ("Subject exceeds maximum length of ".toList) ++ (toString maxLength).toList ++
    (" characters (current: ".toList) ++ (toString current).toList ++ (")".toList)

def subjectPrefixMsg (p : List Char) : List Char :=
  ("Subject must start with \"".toList) ++ p ++ ("\"".toList)

/-- Lines 101-108: type membership in `allowedTypes` when set and non-empty. -/
def typeCheckErrors (m : CommitMessage) (r : CommitRuleset) : List (List Char) :=
  match r.allowedTypes with
  | some ts => if ts.length > 0 ∧ ¬ ts.contains m.type then [typeNotAllowedMsg m.type ts] else []
  | none => []

/-- Lines 110-113: scope presence when `requireScope` is truthy. -/
def scopeRequiredErrors (m : CommitMessage) (r : CommitRuleset) : List (List Char) :=
  if truthyB r.requireScope ∧ ¬ scopeTruthy m.scope then [scopeRequiredMsg] else []

/-- Lines 115-122: scope membership in `allowedScopes` when both are set. -/
def allowedScopeErrors (m : CommitMessage) (r : CommitRuleset) : List (List Char) :=
  match r.allowedScopes, m.scope with
  | some ss, some sc =>
      if ss.length > 0 ∧ sc ≠ [] ∧ ¬ ss.contains sc then [scopeNotAllowedMsg sc ss] else []
  | _, _ => []

/-- Lines 124-130: subject length against the effective maximum. -/
def subjectLengthErrors (m : CommitMessage) (r : CommitRuleset) : List (List Char) :=
  if (m.subject.length : Int) > effectiveMaxLength r then
    [subjectLengthMsg (effectiveMaxLength r) (m.subject.length : Int)]
  else []

/-- Lines 132-139: subject prefix when `subjectPrefix` is truthy. -/
def subjectPrefixErrors (m : CommitMessage) (r : CommitRuleset) : List (List Char) :=
  match r.subjectPrefix with
  | some p => if p ≠ [] ∧ ¬ p.isPrefixOf m.subject then [subjectPrefixMsg p] else []
  | none => []

/-- src/ruleset.ts `validateAgainstRuleset`: all applicable checks run and
every violation is collected, in source order. -/
def validateAgainstRuleset (message : CommitMessage) (ruleset : CommitRuleset) : List (List Char) :=
  typeCheckErrors message ruleset ++ scopeRequiredErrors message ruleset ++
    allowedScopeErrors message ruleset ++ subjectLengthErrors message ruleset ++
    subjectPrefixErrors message ruleset

/-! ## src/issue.ts

`new RegExp(pattern)` is modelled by `parseJsRegex`, a parser for the JS
regex dialect restricted to the constructs relevant here (literals, escapes,
character classes, `.`, capturing and non-capturing groups, alternation and
the `* + ? {n} {n,} {n,m}` quantifiers with their lazy variants); patterns
the constructor rejects — and constructs outside this subset — parse to
`none`, which the extractor treats as "feature disabled". -/

/-- Predicate of a class escape: `\d \D \w \W \s \S`. -/
def classEscape (c : Char) : Option (Char → Bool) :=
  if c = 'd' then some Char.isDigit
  else if c = 'D' then some (fun ch => !(Char.isDigit ch))
  else if c = 'w' then some (fun ch => ch.isAlphanum || ch = '_')
  else if c = 'W' then some (fun ch => !(ch.isAlphanum || ch = '_'))
  else if c = 's' then some jsWhitespace
  else if c = 'S' then some (fun ch => !(jsWhitespace ch))
  else none

/-- Literal value of a non-class escape (`\n`, `\t`, …; any other escaped
character stands for itself). -/
def literalEscape (c : Char) : Char :=
  if c = 'n' then '\n'
  else if c = 't' then '\t'
  else if c = 'r' then '\r'
  else if c = 'f' then '\x0c'
  else if c = 'v' then '\x0b'
  else if c = '0' then '\x00'
  else c

/-- Parse the items of a character class `[...]` up to the closing `]`,
returning the accumulated predicates and the remaining input. -/
def parseClassItems : Nat → List Char → List (Char → Bool) →
    Option (List (Char → Bool) × List Char)
  | 0, _, _ => none
  | _, [], _ => none
  | _, ']' :: rest, acc => some (acc, rest)
  | fuel + 1, '\\' :: c :: rest, acc =>
      (match classEscape c with
       | some p => parseClassItems fuel rest (p :: acc)
       | none => parseClassItems fuel rest ((fun ch => ch = literalEscape c) :: acc))
  | _, '\\' :: [], _ => none
  | fuel + 1, c :: '-' :: d :: rest, acc =>
      if d = ']' then
        parseClassItems fuel (['-', d] ++ rest) ((fun ch => ch = c) :: acc)
      else
        parseClassItems fuel rest ((fun ch => c ≤ ch ∧ ch ≤ d) :: acc)
  | fuel + 1, c :: rest, acc => parseClassItems fuel rest ((fun ch => ch = c) :: acc)

/-- Parse a whole character class (after the opening `[`), handling the `^`
negation. -/
def parseCharClass (fuel : Nat) (cs : List Char) : Option (Regex × List Char) :=
  match cs with
  | '^' :: rest =>
      (parseClassItems fuel rest []).map (fun pr =>
        (.chr (fun ch => !(pr.1.any (fun p => p ch))), pr.2))
  | _ =>
      (parseClassItems fuel cs []).map (fun pr =>
        (.chr (fun ch => pr.1.any (fun p => p ch)), pr.2))

/-- Lazy `r{0,n}`. -/
def ruptoL : Nat → Regex → Regex
  | 0, _ => .eps
  | n + 1, r => .alt .eps (.seq r (ruptoL n r))

def takeDigits (cs : List Char) : List Char × List Char :=
  (cs.takeWhile Char.isDigit, cs.dropWhile Char.isDigit)

def digitsToNat (ds : List Char) : Nat :=
  ds.foldl (fun a c => a * 10 + (c.toNat - 48)) 0

/-- Parse a `{n}` / `{n,}` / `{n,m}` quantifier body after the `{`. -/
def parseBraceQuant (cs : List Char) : Option ((Nat × Option (Option Nat)) × List Char) :=
  let (ds, rest) := takeDigits cs
  if ds = [] then none
  else
    match rest with
    | '}' :: rest2 => some ((digitsToNat ds, none), rest2)
    | ',' :: '}' :: rest2 => some ((digitsToNat ds, some none), rest2)
    | ',' :: rest2 =>
        let (ds2, rest3) := takeDigits rest2
        if ds2 = [] then none
        else
          match rest3 with
          | '}' :: rest4 => some ((digitsToNat ds, some (some (digitsToNat ds2))), rest4)
          | _ => none
    | _ => none

/-- Apply a quantifier following an atom, with its optional lazy `?`. -/
def parseQuantSuffix (r : Regex) (cs : List Char) : Regex × List Char :=
  match cs with
  | '*' :: '?' :: rest => (.starL r, rest)
  | '*' :: rest => (.starG r, rest)
  | '+' :: '?' :: rest => (.seq r (.starL r), rest)
  | '+' :: rest => (rplus r, rest)
  | '?' :: '?' :: rest => (.alt .eps r, rest)
  | '?' :: rest => (ropt r, rest)
  | '{' :: rest =>
      (match parseBraceQuant rest with
       | some ((n, bound), rest2) =>
           (match bound, rest2 with
            | none, _ => (rrep n r, rest2)
            | some none, '?' :: rest3 => (.seq (rrep n r) (.starL r), rest3)
            | some none, _ => (ratLeast n r, rest2)
            | some (some m), '?' :: rest3 => (.seq (rrep n r) (ruptoL (m - n) r), rest3)
            | some (some m), _ => (rbetween n m r, rest2))
       | none => (r, cs))
  | _ => (r, cs)

mutual

/-- Parse one atom. `gi` is the running count of capture groups already
opened, used to number `(...)` groups left to right from 1. -/
def parseAtom : Nat → List Char → Nat → Option (Regex × List Char × Nat)
  | 0, _, _ => none
  | fuel + 1, cs, gi =>
      match cs with
      | '(' :: '?' :: ':' :: rest =>
          (match parseRAlt fuel rest gi with
           | some (r, ')' :: rest2, gi2) => some (r, rest2, gi2)
           | _ => none)
      | '(' :: '?' :: _ => none
      | '(' :: rest =>
          (match parseRAlt fuel rest (gi + 1) with
           | some (r, ')' :: rest2, gi2) => some (.group (gi + 1) r, rest2, gi2)
           | _ => none)
      | '[' :: rest => (parseCharClass fuel rest).map (fun pr => (pr.1, pr.2, gi))
      | '\\' :: c :: rest =>
          (match classEscape c with
           | some p => some (.chr p, rest, gi)
           | none => some (.chr (fun ch => ch = literalEscape c), rest, gi))
      | '\\' :: [] => none
      | '.' :: rest => some (.chr (fun ch => !(ch = '\n')), rest, gi)
      | '^' :: _ => none
      | '$' :: _ => none
      | '*' :: _ => none
      | '+' :: _ => none
      | '?' :: _ => none
      | c :: rest => some (.chr (fun ch => ch = c), rest, gi)
      | [] => none

/-- Parse a (possibly empty) concatenation, stopping at `)` or `|`. -/
def parseRSeq : Nat → List Char → Nat → Regex → Option (Regex × List Char × Nat)
  | 0, _, _, _ => none
  | _, [], gi, acc => some (acc, [], gi)
  | _, ')' :: rest, gi, acc => some (acc, ')' :: rest, gi)
  | _, '|' :: rest, gi, acc => some (acc, '|' :: rest, gi)
  | fuel + 1, cs, gi, acc =>
      match parseAtom fuel cs gi with
      | some (r, cs2, gi2) =>
          let qr := parseQuantSuffix r cs2
          parseRSeq fuel qr.2 gi2 (.seq acc qr.1)
      | none => none

/-- Parse an alternation. -/
def parseRAlt : Nat → List Char → Nat → Option (Regex × List Char × Nat)
  | 0, _, _ => none
  | fuel + 1, cs, gi =>
      match parseRSeq fuel cs gi .eps with
      | some (r, '|' :: rest, gi2) =>
          (match parseRAlt fuel rest gi2 with
           | some (r2, rest2, gi3) => some (.alt r r2, rest2, gi3)
           | none => none)
      | some (r, rest, gi2) => some (r, rest, gi2)
      | none => none

end

/-- Model of `new RegExp(pattern)`: `none` when the pattern is rejected
(or uses a construct outside the modelled subset). -/
def parseJsRegex (pattern : List Char) : Option Regex :=
  match parseRAlt (4 * pattern.length + 16) pattern 0 with
  | some (r, [], _) => some r
  | _ => none

/-- Lookup of `match[i]` for a capture group: the most recent capture wins. -/
def capLookup (caps : List (Nat × List Char)) (i : Nat) : Option (List Char) :=
  (caps.find? (fun c => c.1 = i)).map (fun c => c.2)

/-- src/issue.ts lines 7-31 `extractIssueFromBranch`: empty inputs and
invalid patterns yield `null`; otherwise the first capture group when it is
truthy, else the full match when truthy, else `null`. -/
def extractIssueFromBranch (branchName pattern : List Char) : Option (List Char) :=
  if branchName = [] || pattern = [] then none
  else
    match parseJsRegex pattern with
    | none => none
    | some r =>
        match jsMatchFirst r branchName with
        | none => none
        | some (full, caps) =>
            match capLookup caps 1 with
            | some g =>
                if g ≠ [] then some g
                else if full ≠ [] then some full else none
            | none => if full ≠ [] then some full else none

def jsToUpper (s : List Char) : List Char := s.map Char.toUpper

/-- src/issue.ts lines 39-51 `formatIssueReference`: skip the prefix when
the issue already starts with it, compared case-insensitively. -/
def formatIssueReference (issue pfx : List Char) : List Char :=
  if issue = [] then []
  else if pfx ≠ [] ∧ (jsToUpper pfx).isPrefixOf (jsToUpper issue) then issue
  else pfx ++ issue

/-- src/issue.ts lines 61-72 `getIssueReferenceFromBranch`. -/
def getIssueReferenceFromBranch (branchName pattern pfx : List Char) : Option (List Char) :=
  match extractIssueFromBranch branchName pattern with
  | none => none
  | some issue => if issue = [] then none else some (formatIssueReference issue pfx)

/-- Truthiness of an optional string (`undefined` and `''` are falsy);
used for `ruleset.subjectPrefix` in `stricterRuleset`. -/
def optStrFalsy (v : Option (List Char)) : Prop :=
  v = none ∨ v = some []

/-- One constraint of `r2` made stricter than in `r`, the others unchanged:
the effective subject-length cap lowered, `allowedTypes` or `allowedScopes`
narrowed while staying non-empty, `requireScope` turned on, or a
`subjectPrefix` added where none was in force. (Formalizes the sense of
"stricter" under which `validateAgainstRuleset` is monotone.) -/
def stricterRuleset (r r2 : CommitRuleset) : Prop :=
  (r2 = { r with maxSubjectLength := r2.maxSubjectLength } ∧
    effectiveMaxLength r2 ≤ effectiveMaxLength r)
  ∨ (r2 = { r with allowedTypes := r2.allowedTypes } ∧
      ∃ ts ts2, r.allowedTypes = some ts ∧ r2.allowedTypes = some ts2 ∧
        ts2 ≠ [] ∧ ∀ x ∈ ts2, x ∈ ts)
  ∨ (r2 = { r with allowedScopes := r2.allowedScopes } ∧
      ∃ ss ss2, r.allowedScopes = some ss ∧ r2.allowedScopes = some ss2 ∧
        ss2 ≠ [] ∧ ∀ x ∈ ss2, x ∈ ss)
  ∨ (r2 = { r with requireScope := r2.requireScope } ∧
      truthyB r.requireScope = false ∧ r2.requireScope = some true)
  ∨ (r2 = { r with subjectPrefix := r2.subjectPrefix } ∧
      optStrFalsy r.subjectPrefix ∧ ∃ p, r2.subjectPrefix = some p ∧ p ≠ [])

/-! # Theorems -/

/-! ## Truncation lemmas -/

theorem truncateDiff_length_le (diff : List Char) (maxChars : Nat) :
    (truncateDiff diff maxChars).1.length ≤ maxChars + truncationMarker.length := by
  unfold truncateDiff
  by_cases h : diff.length > maxChars
  · simp only [h, if_true]
    have h1 : (diff.take maxChars).length ≤ maxChars := by
      simp [List.length_take]
    cases hidx : lastNewlineIdx (diff.take maxChars) with
    | none =>
        simp only [hidx, List.length_append]
        omega
    | some i =>
        by_cases h5 : 5 * i > 4 * maxChars
        · have h2 : ((diff.take maxChars).take i).length ≤ maxChars := by
            simp only [List.length_take]
            omega
          simp only [hidx, h5, if_true, List.length_append]
          omega
        · simp only [hidx, h5, if_false, List.length_append]
          omega
  · simp only [h, if_false]
    omega

theorem truncateDiff_not_truncated (diff : List Char) (maxChars : Nat) :
    (truncateDiff diff maxChars).2 = false ↔ diff.length ≤ maxChars := by
  unfold truncateDiff
  by_cases h : diff.length > maxChars
  · simp [h]
  · simp [h]; omega

theorem truncateDiff_eq_of_small (diff : List Char) (maxChars : Nat)
    (h : diff.length ≤ maxChars) : (truncateDiff diff maxChars).1 = diff := by
  unfold truncateDiff
  have h2 : ¬ diff.length > maxChars := by omega
  simp [h2]

theorem truncateDiff_marker_of_truncated (diff : List Char) (maxChars : Nat)
    (h : (truncateDiff diff maxChars).2 = true) :
    ∃ pre, (truncateDiff diff maxChars).1 = pre ++ truncationMarker := by
  unfold truncateDiff at *
  by_cases hl : diff.length > maxChars
  · simp only [hl, if_true]
    cases hidx : lastNewlineIdx (diff.take maxChars) with
    | none => exact ⟨diff.take maxChars, rfl⟩
    | some i =>
        by_cases h5 : 5 * i > 4 * maxChars
        · exact ⟨(diff.take maxChars).take i, by simp [hidx, h5]⟩
        · exact ⟨diff.take maxChars, by simp [hidx, h5]⟩
  · simp [hl] at h


/-- Bundled behaviour of the truncation step. -/
theorem truncateDiff_spec (d : List Char) (B : Nat) :
    (truncateDiff d B).1.length ≤ B + truncationMarker.length
    ∧ ((truncateDiff d B).2 = false → (truncateDiff d B).1 = d ∧ d.length ≤ B)
    ∧ ((truncateDiff d B).2 = true → ∃ pre, (truncateDiff d B).1 = pre ++ truncationMarker) := by
  refine ⟨truncateDiff_length_le d B, fun h => ?_, truncateDiff_marker_of_truncated d B⟩
  have hlen : d.length ≤ B := (truncateDiff_not_truncated d B).mp h
  exact ⟨truncateDiff_eq_of_small d B hlen, hlen⟩

theorem truncateDiff_truncated_iff (d : List Char) (B : Nat) :
    (truncateDiff d B).2 = true ↔ d.length > B := by
  constructor
  · intro h
    by_contra hle
    have : (truncateDiff d B).2 = false := (truncateDiff_not_truncated d B).mpr (by omega)
    rw [h] at this
    exact Bool.true_eq_false.mp this
  · intro h
    cases ht : (truncateDiff d B).2 with
    | true => rfl
    | false =>
        have := (truncateDiff_not_truncated d B).mp ht
        omega

/-- C2: for every (filtered, masked) diff text and character budget, the
diff returned by `getStagedDiff` and `getUncommittedDiff` is at most the
budget plus the truncation marker long, and either equals the
filtered-masked input unmodified (with `truncated = false`, exactly when
that input fits the budget) or ends with the newline-led truncation marker
(with `truncated = true`). -/
theorem C2_truncation_safety (rawDiff rawSummary stagedDiff unstagedDiff stagedSummary
    unstagedSummary : List Char) (maxChars : Nat) (excludePatterns : List (List Char))
    (shouldMask : Bool) :
    ((getStagedDiff rawDiff rawSummary maxChars excludePatterns shouldMask).diff.length
        ≤ maxChars + truncationMarker.length
      ∧ ((getStagedDiff rawDiff rawSummary maxChars excludePatterns shouldMask).truncated = false →
          (getStagedDiff rawDiff rawSummary maxChars excludePatterns shouldMask).diff
            = (if shouldMask then maskSensitiveInfo (filterDiffByPatterns rawDiff excludePatterns)
               else filterDiffByPatterns rawDiff excludePatterns)
          ∧ (if shouldMask then maskSensitiveInfo (filterDiffByPatterns rawDiff excludePatterns)
             else filterDiffByPatterns rawDiff excludePatterns).length ≤ maxChars)
      ∧ ((getStagedDiff rawDiff rawSummary maxChars excludePatterns shouldMask).truncated = true →
          ∃ pre, (getStagedDiff rawDiff rawSummary maxChars excludePatterns shouldMask).diff
            = pre ++ truncationMarker))
    ∧ ((getUncommittedDiff stagedDiff unstagedDiff stagedSummary unstagedSummary maxChars
          excludePatterns shouldMask).diff.length ≤ maxChars + truncationMarker.length
      ∧ ((getUncommittedDiff stagedDiff unstagedDiff stagedSummary unstagedSummary maxChars
            excludePatterns shouldMask).truncated = false →
          (getUncommittedDiff stagedDiff unstagedDiff stagedSummary unstagedSummary maxChars
              excludePatterns shouldMask).diff
            = (if shouldMask then
                 maskSensitiveInfo (filterDiffByPatterns (combineRawDiff stagedDiff unstagedDiff)
                   excludePatterns)
               else filterDiffByPatterns (combineRawDiff stagedDiff unstagedDiff) excludePatterns)
          ∧ (if shouldMask then
               maskSensitiveInfo (filterDiffByPatterns (combineRawDiff stagedDiff unstagedDiff)
                 excludePatterns)
             else filterDiffByPatterns (combineRawDiff stagedDiff unstagedDiff)
               excludePatterns).length ≤ maxChars)
      ∧ ((getUncommittedDiff stagedDiff unstagedDiff stagedSummary unstagedSummary maxChars
            excludePatterns shouldMask).truncated = true →
          ∃ pre, (getUncommittedDiff stagedDiff unstagedDiff stagedSummary unstagedSummary maxChars
              excludePatterns shouldMask).diff = pre ++ truncationMarker)) := by
  constructor
  · exact truncateDiff_spec
      (if shouldMask then maskSensitiveInfo (filterDiffByPatterns rawDiff excludePatterns)
       else filterDiffByPatterns rawDiff excludePatterns) maxChars
  · exact truncateDiff_spec
      (if shouldMask then
         maskSensitiveInfo (filterDiffByPatterns (combineRawDiff stagedDiff unstagedDiff)
           excludePatterns)
       else filterDiffByPatterns (combineRawDiff stagedDiff unstagedDiff) excludePatterns) maxChars

/-- Closed instance of `C2_truncation_safety`: a 15-character diff against a
budget of 10 is truncated and ends with the marker. -/
theorem C2_truncation_safety_witness :
    ∃ pre, (getStagedDiff (("abcde\nfgh\nijklm").toList) [] 10 [] false).diff
      = pre ++ truncationMarker := by
  have h := C2_truncation_safety (("abcde\nfgh\nijklm").toList) [] [] [] [] [] 10 [] false
  exact h.1.2.2 (by decide)

/-- C10: the `fileSummary` of both diff assemblers depends only on the raw
summary and the exclusion patterns — it is never masked and never truncated,
whatever the masking flag and budget are — and the `truncated` flag reports
solely on the diff text. -/
theorem C10_fileSummary_frame (rd rs sd ud ss us : List Char) (mc mc2 : Nat)
    (P : List (List Char)) (m m2 : Bool) :
    (getStagedDiff rd rs mc P m).fileSummary = filterFileSummary rs P
    ∧ (getUncommittedDiff sd ud ss us mc P m).fileSummary
        = filterFileSummary (combineRawSummary ss us) P
    ∧ (getStagedDiff rd rs mc P m).fileSummary = (getStagedDiff rd rs mc2 P m2).fileSummary
    ∧ (getUncommittedDiff sd ud ss us mc P m).fileSummary
        = (getUncommittedDiff sd ud ss us mc2 P m2).fileSummary
    ∧ ((getStagedDiff rd rs mc P m).truncated = true ↔
        (if m then maskSensitiveInfo (filterDiffByPatterns rd P)
         else filterDiffByPatterns rd P).length > mc)
    ∧ ((getUncommittedDiff sd ud ss us mc P m).truncated = true ↔
        (if m then maskSensitiveInfo (filterDiffByPatterns (combineRawDiff sd ud) P)
         else filterDiffByPatterns (combineRawDiff sd ud) P).length > mc) := by
  refine ⟨rfl, rfl, rfl, rfl, ?_, ?_⟩
  · exact truncateDiff_truncated_iff _ mc
  · exact truncateDiff_truncated_iff _ mc

/-- C5: `generateCommitMessageCandidates` performs exactly one retry with
identical arguments: a first success is returned after one attempt; a
failure followed by a success returns the retry output after two attempts;
two failures surface the second error wrapped with the operation context
after two attempts; never more than two attempts; and the result is
insensitive to what any third or later attempt would return. -/
theorem C5_retry_policy {A R : Type} (call : Nat → A → Except (List Char) R) (args : A) :
    (∀ r, call 0 args = .ok r → generateCommitMessageCandidates call args = (.ok r, 1))
    ∧ (∀ e r, call 0 args = .error e → call 1 args = .ok r →
        generateCommitMessageCandidates call args = (.ok r, 2))
    ∧ (∀ e e2, call 0 args = .error e → call 1 args = .error e2 →
        generateCommitMessageCandidates call args = (.error (retryContextPrefix ++ e2), 2))
    ∧ (generateCommitMessageCandidates call args).2 ≤ 2
    ∧ (∀ call2 : Nat → A → Except (List Char) R, call2 0 args = call 0 args →
        call2 1 args = call 1 args →
        generateCommitMessageCandidates call2 args = generateCommitMessageCandidates call args) := by
  refine ⟨?_, ?_, ?_, ?_, ?_⟩
  · intro r h
    unfold generateCommitMessageCandidates
    rw [h]
  · intro e r h0 h1
    unfold generateCommitMessageCandidates
    rw [h0, h1]
  · intro e e2 h0 h1
    unfold generateCommitMessageCandidates
    rw [h0, h1]
  · unfold generateCommitMessageCandidates
    cases call 0 args with
    | ok r => simp
    | error e =>
        cases call 1 args with
        | ok r => simp
        | error e2 => simp
  · intro call2 h0 h1
    unfold generateCommitMessageCandidates
    rw [h0, h1]

/-- Closed instance of `C5_retry_policy`: a provider failing on attempt 0
and succeeding on attempt 1 yields the retry output after exactly two
attempts. -/
theorem C5_retry_policy_witness :
    generateCommitMessageCandidates
      (fun n (_ : Unit) =>
        if n = 0 then (Except.error (("transport error").toList)) else Except.ok (42 : Nat)) ()
      = (Except.ok 42, 2) := by
  have h := (C5_retry_policy
    (fun n (_ : Unit) =>
      if n = 0 then (Except.error (("transport error").toList)) else Except.ok (42 : Nat)) ()).2.1
  exact h (("transport error").toList) 42 rfl rfl


/-- C8: `loadRuleset` treats a missing or unparsable policy file as "no
ruleset"; a parsed object is sanitized field by field (each field depends
only on its own input value, an object is never rejected whole), and any
`maxSubjectLength` carried by a returned ruleset lies in (0, 200] — a
positive numeric input value is clamped to 200. -/
theorem C8_loadRuleset_sanitization (v : JsonValue) :
    loadRuleset .missing = none
    ∧ loadRuleset .unparsable = none
    ∧ (∀ r n, loadRuleset (.parsed v) = some r → r.maxSubjectLength = some n →
        0 < n ∧ n ≤ 200)
    ∧ (∀ fields, (validateRuleset (.obj fields)).isSome = true)
    ∧ (∀ f1 f2, jlookup f1 (("maxSubjectLength").toList) = jlookup f2 (("maxSubjectLength").toList) →
        (validateRuleset (.obj f1)).map CommitRuleset.maxSubjectLength
          = (validateRuleset (.obj f2)).map CommitRuleset.maxSubjectLength)
    ∧ (∀ f1 f2, jlookup f1 (("requireScope").toList) = jlookup f2 (("requireScope").toList) →
        (validateRuleset (.obj f1)).map CommitRuleset.requireScope
          = (validateRuleset (.obj f2)).map CommitRuleset.requireScope)
    ∧ loadRuleset (.parsed (.obj [(("maxSubjectLength").toList, .num 500)]))
        = some { maxSubjectLength := some 200 }
    ∧ loadRuleset (.parsed (.obj [(("maxSubjectLength").toList, .str (("huge").toList)),
        (("requireScope").toList, .bool true)])) = some { requireScope := some true } := by
  refine ⟨rfl, rfl, ?_, ?_, ?_, ?_, by decide, by decide⟩
  · intro r n hr hn
    cases v with
    | obj fields =>
        simp only [loadRuleset, validateRuleset, Option.some.injEq] at hr
        subst hr
        simp only at hn
        unfold sanitizeMaxSubjectLength at hn
        cases hv : jlookup fields (("maxSubjectLength").toList) with
        | none => rw [hv] at hn; exact absurd hn (by simp)
        | some j =>
            rw [hv] at hn
            cases j with
            | num k =>
                simp only at hn
                by_cases hk : k > 0
                · rw [if_pos hk] at hn
                  have : min k 200 = n := Option.some.injEq _ _ ▸ hn
                  have h200 : (0 : Int) < 200 := by norm_num
                  constructor
                  · rw [← this]; exact lt_min hk h200
                  · rw [← this]; exact min_le_right _ _
                · rw [if_neg hk] at hn; exact absurd hn (by simp)
            | str s => exact absurd hn (by simp)
            | bool b => exact absurd hn (by simp)
            | null => exact absurd hn (by simp)
            | arr xs => exact absurd hn (by simp)
            | obj o => exact absurd hn (by simp)
    | arr xs =>
        simp only [loadRuleset, validateRuleset, Option.some.injEq] at hr
        subst hr
        exact absurd hn (by simp)
    | str s => exact absurd hr (by simp [loadRuleset, validateRuleset])
    | num k => exact absurd hr (by simp [loadRuleset, validateRuleset])
    | bool b => exact absurd hr (by simp [loadRuleset, validateRuleset])
    | null => exact absurd hr (by simp [loadRuleset, validateRuleset])
  · intro fields
    simp [validateRuleset]
  · intro f1 f2 h
    simp only [validateRuleset]
    rw [h]
    rfl
  · intro f1 f2 h
    simp only [validateRuleset]
    rw [h]
    rfl

/-- Closed instance of `C8_loadRuleset_sanitization`: the clamp bound at the
concrete policy value 500. -/
theorem C8_loadRuleset_sanitization_witness :
    (0 : Int) < 200 ∧ (200 : Int) ≤ 200 := by
  have h := (C8_loadRuleset_sanitization
    (.obj [(("maxSubjectLength").toList, .num 500)])).2.2.1
  exact h { maxSubjectLength := some 200 } 200 (by decide) rfl


/-! ## Distinctness of the five violation messages (their constant prefixes
differ), needed to read memberships off the concatenated violation list. -/

theorem typeMsg_ne_scopeReqMsg (t : List Char) (ts : List (List Char)) :
    typeNotAllowedMsg t ts ≠ scopeRequiredMsg := by
  intro h
  have h1 : (typeNotAllowedMsg t ts).head? = some 'T' := rfl
  rw [h] at h1
  exact absurd h1 (by decide)

theorem typeMsg_ne_scopeNAMsg (t : List Char) (ts : List (List Char)) (sc : List Char)
    (ss : List (List Char)) : typeNotAllowedMsg t ts ≠ scopeNotAllowedMsg sc ss := by
  intro h
  have h1 : (typeNotAllowedMsg t ts).head? = some 'T' := rfl
  have h2 : (scopeNotAllowedMsg sc ss).head? = some 'S' := rfl
  rw [h, h2] at h1
  exact absurd h1 (by decide)

theorem typeMsg_ne_lengthMsg (t : List Char) (ts : List (List Char)) (a b : Int) :
    typeNotAllowedMsg t ts ≠ subjectLengthMsg a b := by
  intro h
  have h1 : (typeNotAllowedMsg t ts).head? = some 'T' := rfl
  have h2 : (subjectLengthMsg a b).head? = some 'S' := rfl
  rw [h, h2] at h1
  exact absurd h1 (by decide)

theorem typeMsg_ne_prefixMsg (t : List Char) (ts : List (List Char)) (p : List Char) :
    typeNotAllowedMsg t ts ≠ subjectPrefixMsg p := by
  intro h
  have h1 : (typeNotAllowedMsg t ts).head? = some 'T' := rfl
  have h2 : (subjectPrefixMsg p).head? = some 'S' := rfl
  rw [h, h2] at h1
  exact absurd h1 (by decide)

theorem scopeReqMsg_ne_scopeNAMsg (sc : List Char) (ss : List (List Char)) :
    scopeRequiredMsg ≠ scopeNotAllowedMsg sc ss := by
  intro h
  have h1 : (scopeNotAllowedMsg sc ss).get? 6 = some '"' := rfl
  rw [← h] at h1
  exact absurd h1 (by decide)

theorem scopeReqMsg_ne_lengthMsg (a b : Int) : scopeRequiredMsg ≠ subjectLengthMsg a b := by
  intro h
  have h1 : (subjectLengthMsg a b).get? 1 = some 'u' := rfl
  rw [← h] at h1
  exact absurd h1 (by decide)

theorem scopeReqMsg_ne_prefixMsg (p : List Char) : scopeRequiredMsg ≠ subjectPrefixMsg p := by
  intro h
  have h1 : (subjectPrefixMsg p).get? 1 = some 'u' := rfl
  rw [← h] at h1
  exact absurd h1 (by decide)

theorem scopeNAMsg_ne_lengthMsg (sc : List Char) (ss : List (List Char)) (a b : Int) :
    scopeNotAllowedMsg sc ss ≠ subjectLengthMsg a b := by
  intro h
  have h1 : (scopeNotAllowedMsg sc ss).get? 1 = some 'c' := rfl
  have h2 : (subjectLengthMsg a b).get? 1 = some 'u' := rfl
  rw [h, h2] at h1
  exact absurd h1 (by decide)

theorem scopeNAMsg_ne_prefixMsg (sc : List Char) (ss : List (List Char)) (p : List Char) :
    scopeNotAllowedMsg sc ss ≠ subjectPrefixMsg p := by
  intro h
  have h1 : (scopeNotAllowedMsg sc ss).get? 1 = some 'c' := rfl
  have h2 : (subjectPrefixMsg p).get? 1 = some 'u' := rfl
  rw [h, h2] at h1
  exact absurd h1 (by decide)

theorem lengthMsg_ne_prefixMsg (a b : Int) (p : List Char) :
    subjectLengthMsg a b ≠ subjectPrefixMsg p := by
  intro h
  have h1 : (subjectLengthMsg a b).get? 8 = some 'e' := rfl
  have h2 : (subjectPrefixMsg p).get? 8 = some 'm' := rfl
  rw [h, h2] at h1
  exact absurd h1 (by decide)


/-! ## Membership in each check contribution -/

theorem mem_typeCheckErrors (m : CommitMessage) (r : CommitRuleset) (x : List Char) :
    x ∈ typeCheckErrors m r ↔
      ∃ ts, r.allowedTypes = some ts ∧ x = typeNotAllowedMsg m.type ts ∧
        ts.length > 0 ∧ ¬ ts.contains m.type = true := by
  unfold typeCheckErrors
  cases hat : r.allowedTypes with
  | none => simp
  | some ts =>
      dsimp only
      by_cases h : ts.length > 0 ∧ ¬ ts.contains m.type
      · rw [if_pos h]
        simp only [List.mem_singleton]
        constructor
        · intro hx
          exact ⟨ts, rfl, hx, h.1, by simpa using h.2⟩
        · intro hex
          obtain ⟨ts2, hts2, hx, _⟩ := hex
          cases hts2
          exact hx
      · rw [if_neg h]
        simp only [List.not_mem_nil, false_iff]
        intro hex
        obtain ⟨ts2, hts2, hx, hlen, hcon⟩ := hex
        cases hts2
        exact h ⟨hlen, by simpa using hcon⟩

theorem mem_scopeRequiredErrors (m : CommitMessage) (r : CommitRuleset) (x : List Char) :
    x ∈ scopeRequiredErrors m r ↔
      x = scopeRequiredMsg ∧ truthyB r.requireScope = true ∧ scopeTruthy m.scope = false := by
  unfold scopeRequiredErrors
  by_cases h : truthyB r.requireScope ∧ ¬ scopeTruthy m.scope
  · rw [if_pos h]
    simp only [List.mem_singleton]
    constructor
    · intro hx
      exact ⟨hx, h.1, by simpa using h.2⟩
    · intro hx
      exact hx.1
  · rw [if_neg h]
    simp only [List.not_mem_nil, false_iff]
    intro hx
    exact h ⟨hx.2.1, by simp [hx.2.2]⟩

theorem mem_allowedScopeErrors (m : CommitMessage) (r : CommitRuleset) (x : List Char) :
    x ∈ allowedScopeErrors m r ↔
      ∃ ss sc, r.allowedScopes = some ss ∧ m.scope = some sc ∧
        x = scopeNotAllowedMsg sc ss ∧ ss.length > 0 ∧ sc ≠ [] ∧ ¬ ss.contains sc = true := by
  unfold allowedScopeErrors
  cases has : r.allowedScopes with
  | none => simp
  | some ss =>
      cases hsc : m.scope with
      | none => simp
      | some sc =>
          dsimp only
          by_cases h : ss.length > 0 ∧ sc ≠ [] ∧ ¬ ss.contains sc
          · rw [if_pos h]
            simp only [List.mem_singleton]
            constructor
            · intro hx
              exact ⟨ss, sc, rfl, rfl, hx, h.1, h.2.1, by simpa using h.2.2⟩
            · intro hex
              obtain ⟨ss2, sc2, hss2, hsc2, hx, _⟩ := hex
              cases hss2; cases hsc2
              exact hx
          · rw [if_neg h]
            simp only [List.not_mem_nil, false_iff]
            intro hex
            obtain ⟨ss2, sc2, hss2, hsc2, hx, hlen, hne, hcon⟩ := hex
            cases hss2; cases hsc2
            exact h ⟨hlen, hne, by simpa using hcon⟩

theorem mem_subjectLengthErrors (m : CommitMessage) (r : CommitRuleset) (x : List Char) :
    x ∈ subjectLengthErrors m r ↔
      x = subjectLengthMsg (effectiveMaxLength r) (m.subject.length : Int) ∧
        (m.subject.length : Int) > effectiveMaxLength r := by
  unfold subjectLengthErrors
  by_cases h : (m.subject.length : Int) > effectiveMaxLength r
  · rw [if_pos h]
    simp only [List.mem_singleton]
    exact ⟨fun hx => ⟨hx, h⟩, fun hx => hx.1⟩
  · rw [if_neg h]
    simp only [List.not_mem_nil, false_iff]
    intro hx
    exact h hx.2

theorem mem_subjectPrefixErrors (m : CommitMessage) (r : CommitRuleset) (x : List Char) :
    x ∈ subjectPrefixErrors m r ↔
      ∃ p, r.subjectPrefix = some p ∧ x = subjectPrefixMsg p ∧ p ≠ [] ∧
        ¬ p.isPrefixOf m.subject = true := by
  unfold subjectPrefixErrors
  cases hp : r.subjectPrefix with
  | none => simp
  | some p =>
      dsimp only
      by_cases h : p ≠ [] ∧ ¬ p.isPrefixOf m.subject
      · rw [if_pos h]
        simp only [List.mem_singleton]
        constructor
        · intro hx
          exact ⟨p, rfl, hx, h.1, by simpa using h.2⟩
        · intro hex
          obtain ⟨p2, hp2, hx, _⟩ := hex
          cases hp2
          exact hx
      · rw [if_neg h]
        simp only [List.not_mem_nil, false_iff]
        intro hex
        obtain ⟨p2, hp2, hx, hne, hpre⟩ := hex
        cases hp2
        exact h ⟨hne, by simpa using hpre⟩

theorem mem_validateAgainstRuleset (m : CommitMessage) (r : CommitRuleset) (x : List Char) :
    x ∈ validateAgainstRuleset m r ↔
      x ∈ typeCheckErrors m r ∨ x ∈ scopeRequiredErrors m r ∨ x ∈ allowedScopeErrors m r ∨
        x ∈ subjectLengthErrors m r ∨ x ∈ subjectPrefixErrors m r := by
  unfold validateAgainstRuleset
  simp [List.mem_append, or_assoc]


theorem contains_iff_mem {α : Type} [BEq α] [LawfulBEq α] (l : List α) (a : α) :
    l.contains a = true ↔ a ∈ l := by
  simp [List.contains, List.elem_iff]

/-- C6: `validateAgainstRuleset` runs every applicable check and collects
every violation: for any candidate and ruleset, each of the five violation
messages is present exactly when its own check fails, independently of the
other checks; and the spec scenario — `{requireScope: true}` against a
scopeless `fix` candidate — yields exactly the one missing-scope entry.
(The function is pure; it returns a list and leaves the candidate value
untouched by construction.) -/
theorem C6_ruleset_violations (m : CommitMessage) (r : CommitRuleset) :
    validateAgainstRuleset ⟨("fix").toList, none, ("resolve bug").toList⟩
        { requireScope := some true } = [scopeRequiredMsg]
    ∧ (scopeRequiredMsg ∈ validateAgainstRuleset m r ↔
        truthyB r.requireScope = true ∧ scopeTruthy m.scope = false)
    ∧ (subjectLengthMsg (effectiveMaxLength r) (m.subject.length : Int)
          ∈ validateAgainstRuleset m r ↔
        (m.subject.length : Int) > effectiveMaxLength r)
    ∧ (∀ ts, r.allowedTypes = some ts →
        (typeNotAllowedMsg m.type ts ∈ validateAgainstRuleset m r ↔
          ts ≠ [] ∧ ¬ m.type ∈ ts))
    ∧ (∀ p, r.subjectPrefix = some p →
        (subjectPrefixMsg p ∈ validateAgainstRuleset m r ↔
          p ≠ [] ∧ ¬ p.isPrefixOf m.subject = true))
    ∧ (∀ ss sc, r.allowedScopes = some ss → m.scope = some sc →
        (scopeNotAllowedMsg sc ss ∈ validateAgainstRuleset m r ↔
          ss ≠ [] ∧ sc ≠ [] ∧ ¬ sc ∈ ss)) := by
  refine ⟨by decide, ?_, ?_, ?_, ?_, ?_⟩
  · constructor
    · intro hx
      rcases (mem_validateAgainstRuleset m r _).mp hx with h1 | h2 | h3 | h4 | h5
      · obtain ⟨ts, _, heq, _⟩ := (mem_typeCheckErrors m r _).mp h1
        exact absurd heq.symm (typeMsg_ne_scopeReqMsg m.type ts)
      · exact ((mem_scopeRequiredErrors m r _).mp h2).2
      · obtain ⟨ss, sc, _, _, heq, _⟩ := (mem_allowedScopeErrors m r _).mp h3
        exact absurd heq (scopeReqMsg_ne_scopeNAMsg sc ss)
      · obtain ⟨heq, _⟩ := (mem_subjectLengthErrors m r _).mp h4
        exact absurd heq (scopeReqMsg_ne_lengthMsg _ _)
      · obtain ⟨p, _, heq, _⟩ := (mem_subjectPrefixErrors m r _).mp h5
        exact absurd heq (scopeReqMsg_ne_prefixMsg p)
    · intro hc
      exact (mem_validateAgainstRuleset m r _).mpr (Or.inr (Or.inl
        ((mem_scopeRequiredErrors m r _).mpr ⟨rfl, hc.1, hc.2⟩)))
  · constructor
    · intro hx
      rcases (mem_validateAgainstRuleset m r _).mp hx with h1 | h2 | h3 | h4 | h5
      · obtain ⟨ts, _, heq, _⟩ := (mem_typeCheckErrors m r _).mp h1
        exact absurd heq.symm (typeMsg_ne_lengthMsg m.type ts _ _)
      · obtain ⟨heq, _⟩ := (mem_scopeRequiredErrors m r _).mp h2
        exact absurd heq.symm (scopeReqMsg_ne_lengthMsg _ _)
      · obtain ⟨ss, sc, _, _, heq, _⟩ := (mem_allowedScopeErrors m r _).mp h3
        exact absurd heq.symm (scopeNAMsg_ne_lengthMsg sc ss _ _)
      · exact ((mem_subjectLengthErrors m r _).mp h4).2
      · obtain ⟨p, _, heq, _⟩ := (mem_subjectPrefixErrors m r _).mp h5
        exact absurd heq (lengthMsg_ne_prefixMsg _ _ p)
    · intro hc
      exact (mem_validateAgainstRuleset m r _).mpr (Or.inr (Or.inr (Or.inr (Or.inl
        ((mem_subjectLengthErrors m r _).mpr ⟨rfl, hc⟩)))))
  · intro ts hts
    constructor
    · intro hx
      rcases (mem_validateAgainstRuleset m r _).mp hx with h1 | h2 | h3 | h4 | h5
      · obtain ⟨ts2, hts2, heq, hlen, hcon⟩ := (mem_typeCheckErrors m r _).mp h1
        rw [hts] at hts2
        have hts3 : ts = ts2 := Option.some.inj hts2
        subst hts3
        refine ⟨?_, ?_⟩
        · intro hnil
          rw [hnil] at hlen
          simp at hlen
        · intro hmem
          exact hcon ((contains_iff_mem ts m.type).mpr hmem)
      · obtain ⟨heq, _⟩ := (mem_scopeRequiredErrors m r _).mp h2
        exact absurd heq (typeMsg_ne_scopeReqMsg m.type ts)
      · obtain ⟨ss, sc, _, _, heq, _⟩ := (mem_allowedScopeErrors m r _).mp h3
        exact absurd heq (typeMsg_ne_scopeNAMsg m.type ts sc ss)
      · obtain ⟨heq, _⟩ := (mem_subjectLengthErrors m r _).mp h4
        exact absurd heq (typeMsg_ne_lengthMsg m.type ts _ _)
      · obtain ⟨p, _, heq, _⟩ := (mem_subjectPrefixErrors m r _).mp h5
        exact absurd heq (typeMsg_ne_prefixMsg m.type ts p)
    · intro hc
      refine (mem_validateAgainstRuleset m r _).mpr (Or.inl
        ((mem_typeCheckErrors m r _).mpr ⟨ts, hts, rfl, ?_, ?_⟩))
      · cases ts with
        | nil => exact absurd rfl hc.1
        | cons a l => simp
      · intro hcon
        exact hc.2 ((contains_iff_mem ts m.type).mp hcon)
  · intro p hp
    constructor
    · intro hx
      rcases (mem_validateAgainstRuleset m r _).mp hx with h1 | h2 | h3 | h4 | h5
      · obtain ⟨ts, _, heq, _⟩ := (mem_typeCheckErrors m r _).mp h1
        exact absurd heq.symm (typeMsg_ne_prefixMsg m.type ts p)
      · obtain ⟨heq, _⟩ := (mem_scopeRequiredErrors m r _).mp h2
        exact absurd heq.symm (scopeReqMsg_ne_prefixMsg p)
      · obtain ⟨ss, sc, _, _, heq, _⟩ := (mem_allowedScopeErrors m r _).mp h3
        exact absurd heq.symm (scopeNAMsg_ne_prefixMsg sc ss p)
      · obtain ⟨heq, _⟩ := (mem_subjectLengthErrors m r _).mp h4
        exact absurd heq.symm (lengthMsg_ne_prefixMsg _ _ p)
      · obtain ⟨p2, hp2, heq, hne, hpre⟩ := (mem_subjectPrefixErrors m r _).mp h5
        rw [hp] at hp2
        have hp3 : p = p2 := Option.some.inj hp2
        subst hp3
        exact ⟨hne, hpre⟩
    · intro hc
      exact (mem_validateAgainstRuleset m r _).mpr (Or.inr (Or.inr (Or.inr (Or.inr
        ((mem_subjectPrefixErrors m r _).mpr ⟨p, hp, rfl, hc.1, hc.2⟩)))))
  · intro ss sc hss hsc
    constructor
    · intro hx
      rcases (mem_validateAgainstRuleset m r _).mp hx with h1 | h2 | h3 | h4 | h5
      · obtain ⟨ts, _, heq, _⟩ := (mem_typeCheckErrors m r _).mp h1
        exact absurd heq.symm (typeMsg_ne_scopeNAMsg m.type ts sc ss)
      · obtain ⟨heq, _⟩ := (mem_scopeRequiredErrors m r _).mp h2
        exact absurd heq.symm (scopeReqMsg_ne_scopeNAMsg sc ss)
      · obtain ⟨ss2, sc2, hss2, hsc2, heq, hlen, hne, hcon⟩ :=
          (mem_allowedScopeErrors m r _).mp h3
        rw [hss] at hss2
        rw [hsc] at hsc2
        have hss3 : ss = ss2 := Option.some.inj hss2
        have hsc3 : sc = sc2 := Option.some.inj hsc2
        subst hss3
        subst hsc3
        refine ⟨?_, hne, ?_⟩
        · intro hnil
          rw [hnil] at hlen
          simp at hlen
        · intro hmem
          exact hcon ((contains_iff_mem ss sc).mpr hmem)
      · obtain ⟨heq, _⟩ := (mem_subjectLengthErrors m r _).mp h4
        exact absurd heq (scopeNAMsg_ne_lengthMsg sc ss _ _)
      · obtain ⟨p, _, heq, _⟩ := (mem_subjectPrefixErrors m r _).mp h5
        exact absurd heq (scopeNAMsg_ne_prefixMsg sc ss p)
    · intro hc
      refine (mem_validateAgainstRuleset m r _).mpr (Or.inr (Or.inr (Or.inl
        ((mem_allowedScopeErrors m r _).mpr ⟨ss, sc, hss, hsc, rfl, ?_, hc.2.1, ?_⟩))))
      · cases ss with
        | nil => exact absurd rfl hc.1
        | cons a l => simp
      · intro hcon
        exact hc.2.2 ((contains_iff_mem ss sc).mp hcon)

/-- Closed instance of `C6_ruleset_violations`: the missing-scope violation
is reported for the spec scenario. -/
theorem C6_ruleset_violations_witness :
    scopeRequiredMsg ∈ validateAgainstRuleset
      ⟨("fix").toList, none, ("resolve bug").toList⟩ { requireScope := some true } := by
  have h := (C6_ruleset_violations ⟨("fix").toList, none, ("resolve bug").toList⟩
    { requireScope := some true }).2.1
  exact h.mpr ⟨rfl, rfl⟩


/-! ## Monotonicity of the ruleset checks -/

theorem typeCheckErrors_congr (m : CommitMessage) {r r2 : CommitRuleset}
    (h : r.allowedTypes = r2.allowedTypes) : typeCheckErrors m r = typeCheckErrors m r2 := by
  unfold typeCheckErrors
  rw [h]

theorem scopeRequiredErrors_congr (m : CommitMessage) {r r2 : CommitRuleset}
    (h : r.requireScope = r2.requireScope) :
    scopeRequiredErrors m r = scopeRequiredErrors m r2 := by
  unfold scopeRequiredErrors
  rw [h]

theorem allowedScopeErrors_congr (m : CommitMessage) {r r2 : CommitRuleset}
    (h : r.allowedScopes = r2.allowedScopes) :
    allowedScopeErrors m r = allowedScopeErrors m r2 := by
  unfold allowedScopeErrors
  rw [h]

theorem subjectLengthErrors_congr (m : CommitMessage) {r r2 : CommitRuleset}
    (h : r.maxSubjectLength = r2.maxSubjectLength) :
    subjectLengthErrors m r = subjectLengthErrors m r2 := by
  unfold subjectLengthErrors effectiveMaxLength
  rw [h]

theorem subjectPrefixErrors_congr (m : CommitMessage) {r r2 : CommitRuleset}
    (h : r.subjectPrefix = r2.subjectPrefix) :
    subjectPrefixErrors m r = subjectPrefixErrors m r2 := by
  unfold subjectPrefixErrors
  rw [h]

theorem subjectLengthErrors_mono (m : CommitMessage) {r r2 : CommitRuleset}
    (h : effectiveMaxLength r2 ≤ effectiveMaxLength r) :
    (subjectLengthErrors m r).length ≤ (subjectLengthErrors m r2).length := by
  unfold subjectLengthErrors
  by_cases h1 : (m.subject.length : Int) > effectiveMaxLength r
  · rw [if_pos h1, if_pos (lt_of_le_of_lt h h1)]
    exact le_refl _
  · rw [if_neg h1]
    simp

theorem typeCheckErrors_mono (m : CommitMessage) {r r2 : CommitRuleset}
    {ts ts2 : List (List Char)} (hts : r.allowedTypes = some ts)
    (hts2 : r2.allowedTypes = some ts2) (hne : ts2 ≠ []) (hsub : ∀ x ∈ ts2, x ∈ ts) :
    (typeCheckErrors m r).length ≤ (typeCheckErrors m r2).length := by
  unfold typeCheckErrors
  rw [hts, hts2]
  dsimp only
  by_cases h1 : ts.length > 0 ∧ ¬ ts.contains m.type
  · rw [if_pos h1]
    have h2 : ts2.length > 0 ∧ ¬ ts2.contains m.type := by
      refine ⟨?_, ?_⟩
      · cases ts2 with
        | nil => exact absurd rfl hne
        | cons a l => simp
      · intro hc
        exact h1.2 ((contains_iff_mem ts m.type).mpr
          (hsub m.type ((contains_iff_mem ts2 m.type).mp (by simpa using hc))))
    rw [if_pos h2]
    exact le_refl _
  · rw [if_neg h1]
    simp

theorem allowedScopeErrors_mono (m : CommitMessage) {r r2 : CommitRuleset}
    {ss ss2 : List (List Char)} (hss : r.allowedScopes = some ss)
    (hss2 : r2.allowedScopes = some ss2) (hne : ss2 ≠ []) (hsub : ∀ x ∈ ss2, x ∈ ss) :
    (allowedScopeErrors m r).length ≤ (allowedScopeErrors m r2).length := by
  unfold allowedScopeErrors
  rw [hss, hss2]
  cases hsc : m.scope with
  | none => simp
  | some sc =>
      dsimp only
      by_cases h1 : ss.length > 0 ∧ sc ≠ [] ∧ ¬ ss.contains sc
      · rw [if_pos h1]
        have h2 : ss2.length > 0 ∧ sc ≠ [] ∧ ¬ ss2.contains sc := by
          refine ⟨?_, h1.2.1, ?_⟩
          · cases ss2 with
            | nil => exact absurd rfl hne
            | cons a l => simp
          · intro hc
            exact h1.2.2 ((contains_iff_mem ss sc).mpr
              (hsub sc ((contains_iff_mem ss2 sc).mp (by simpa using hc))))
        rw [if_pos h2]
        exact le_refl _
      · rw [if_neg h1]
        simp

theorem scopeRequiredErrors_nil (m : CommitMessage) {r : CommitRuleset}
    (h : truthyB r.requireScope = false) : scopeRequiredErrors m r = [] := by
  unfold scopeRequiredErrors
  rw [if_neg]
  intro hc
  rw [h] at hc
  exact Bool.false_ne_true hc.1

theorem subjectPrefixErrors_nil (m : CommitMessage) {r : CommitRuleset}
    (h : optStrFalsy r.subjectPrefix) : subjectPrefixErrors m r = [] := by
  unfold subjectPrefixErrors
  rcases h with h | h
  · rw [h]
  · rw [h]
    dsimp only
    rw [if_neg]
    intro hc
    exact hc.1 rfl

/-- C7 (amended): making one constraint of a ruleset stricter — lowering the
effective subject-length cap, narrowing `allowedTypes` or `allowedScopes`
while staying non-empty, turning `requireScope` on, or adding a
`subjectPrefix` — never decreases the number of violations
`validateAgainstRuleset` reports for a fixed candidate. (Lowering
`maxSubjectLength` to 0 is excluded: the `|| 72` fallback treats 0 as unset,
which *raises* the effective cap back to 72 — see `C7_counterexample`.) -/
theorem C7_ruleset_monotonic (m : CommitMessage) (r r2 : CommitRuleset)
    (h : stricterRuleset r r2) :
    (validateAgainstRuleset m r).length ≤ (validateAgainstRuleset m r2).length := by
  unfold validateAgainstRuleset
  simp only [List.length_append]
  rcases h with ⟨heq, hml⟩ | ⟨heq, ts, ts2, hts, hts2, hne, hsub⟩ |
    ⟨heq, ss, ss2, hss, hss2, hne, hsub⟩ | ⟨heq, hrs, _⟩ | ⟨heq, hsp, p, hp, hpne⟩
  · have e1 : r.allowedTypes = r2.allowedTypes := by rw [heq]
    have e2 : r.requireScope = r2.requireScope := by rw [heq]
    have e3 : r.allowedScopes = r2.allowedScopes := by rw [heq]
    have e5 : r.subjectPrefix = r2.subjectPrefix := by rw [heq]
    rw [typeCheckErrors_congr m e1, scopeRequiredErrors_congr m e2,
      allowedScopeErrors_congr m e3, subjectPrefixErrors_congr m e5]
    have := subjectLengthErrors_mono m hml
    omega
  · have e2 : r.requireScope = r2.requireScope := by rw [heq]
    have e3 : r.allowedScopes = r2.allowedScopes := by rw [heq]
    have e4 : r.maxSubjectLength = r2.maxSubjectLength := by rw [heq]
    have e5 : r.subjectPrefix = r2.subjectPrefix := by rw [heq]
    rw [scopeRequiredErrors_congr m e2, allowedScopeErrors_congr m e3,
      subjectLengthErrors_congr m e4, subjectPrefixErrors_congr m e5]
    have := typeCheckErrors_mono m hts hts2 hne hsub
    omega
  · have e1 : r.allowedTypes = r2.allowedTypes := by rw [heq]
    have e2 : r.requireScope = r2.requireScope := by rw [heq]
    have e4 : r.maxSubjectLength = r2.maxSubjectLength := by rw [heq]
    have e5 : r.subjectPrefix = r2.subjectPrefix := by rw [heq]
    rw [typeCheckErrors_congr m e1, scopeRequiredErrors_congr m e2,
      subjectLengthErrors_congr m e4, subjectPrefixErrors_congr m e5]
    have := allowedScopeErrors_mono m hss hss2 hne hsub
    omega
  · have e1 : r.allowedTypes = r2.allowedTypes := by rw [heq]
    have e3 : r.allowedScopes = r2.allowedScopes := by rw [heq]
    have e4 : r.maxSubjectLength = r2.maxSubjectLength := by rw [heq]
    have e5 : r.subjectPrefix = r2.subjectPrefix := by rw [heq]
    rw [typeCheckErrors_congr m e1, allowedScopeErrors_congr m e3,
      subjectLengthErrors_congr m e4, subjectPrefixErrors_congr m e5]
    have : scopeRequiredErrors m r = [] := scopeRequiredErrors_nil m hrs
    rw [this]
    simp
  · have e1 : r.allowedTypes = r2.allowedTypes := by rw [heq]
    have e2 : r.requireScope = r2.requireScope := by rw [heq]
    have e3 : r.allowedScopes = r2.allowedScopes := by rw [heq]
    have e4 : r.maxSubjectLength = r2.maxSubjectLength := by rw [heq]
    rw [typeCheckErrors_congr m e1, scopeRequiredErrors_congr m e2,
      allowedScopeErrors_congr m e3, subjectLengthErrors_congr m e4]
    have : subjectPrefixErrors m r = [] := subjectPrefixErrors_nil m hsp
    rw [this]
    simp

/-- The claim as stated is false at a concrete input: "lowering"
`maxSubjectLength` from 40 to 0 makes the violation list of a 50-character
subject strictly shorter, because line 125 (`ruleset.maxSubjectLength || 72`)
treats 0 as falsy and restores the default cap of 72. -/
theorem C7_counterexample :
    (validateAgainstRuleset ⟨("fix").toList, none, List.replicate 50 'a'⟩
        { maxSubjectLength := some 0 }).length
      < (validateAgainstRuleset ⟨("fix").toList, none, List.replicate 50 'a'⟩
        { maxSubjectLength := some 40 }).length := by decide

/-- Closed instance of `C7_ruleset_monotonic`: lowering `maxSubjectLength`
from 72 to 40 on a 50-character subject cannot lose violations (here 0
becomes 1). -/
theorem C7_ruleset_monotonic_witness :
    (validateAgainstRuleset ⟨("fix").toList, none, List.replicate 50 'a'⟩
        { maxSubjectLength := some 72 }).length
      ≤ (validateAgainstRuleset ⟨("fix").toList, none, List.replicate 50 'a'⟩
        { maxSubjectLength := some 40 }).length :=
  C7_ruleset_monotonic _ _ _ (Or.inl ⟨by decide, by decide⟩)


/-! ## Candidate validation bounds -/

theorem normalizeSubject_length_le (s : List Char) : (normalizeSubject s).length ≤ 72 := by
  have key : ∀ u : List Char,
      (if u.length > 72 then u.take 69 ++ (("...").toList) else u).length ≤ 72 := by
    intro u
    by_cases h : u.length > 72
    · rw [if_pos h]
      rw [List.length_append, List.length_take]
      have : (("...").toList).length = 3 := rfl
      omega
    · rw [if_neg h]
      omega
  exact key _

theorem validateSingle_ok {d : JsonValue} {c : CommitMessage}
    (h : validateSingleCommitMessage d = .ok c) :
    c.subject.length ≤ 72 ∧ c.type ∈ VALID_COMMIT_TYPES := by
  unfold validateSingleCommitMessage at h
  split at h
  · exact absurd h (by simp)
  · split at h
    · rename_i fields2 t ht
      split at h
      · rename_i hcon
        split at h
        · rename_i s hs
          split at h
          · exact absurd h (by simp)
          · have hc := Except.ok.inj h
            constructor
            · rw [← hc]
              exact normalizeSubject_length_le s
            · rw [← hc]
              exact (contains_iff_mem VALID_COMMIT_TYPES t).mp hcon
        · exact absurd h (by simp)
      · exact absurd h (by simp)
    · exact absurd h (by simp)

theorem validateCandidatesFrom_ok {cs : List JsonValue} :
    ∀ {i : Nat} {ms : List CommitMessage}, validateCandidatesFrom i cs = .ok ms →
      ∀ c ∈ ms, ∃ d, validateSingleCommitMessage d = .ok c := by
  induction cs with
  | nil =>
      intro i ms h c hc
      unfold validateCandidatesFrom at h
      have hms := Except.ok.inj h
      rw [← hms] at hc
      exact absurd hc (List.not_mem_nil c)
  | cons d rest ih =>
      intro i ms h c hc
      unfold validateCandidatesFrom at h
      cases hv : validateSingleCommitMessage d with
      | ok m =>
          rw [hv] at h
          cases hr : validateCandidatesFrom (i + 1) rest with
          | ok ms2 =>
              rw [hr] at h
              have hms : m :: ms2 = ms := Except.ok.inj h
              rw [← hms] at hc
              rcases List.mem_cons.mp hc with hcm | hcm
              · exact ⟨d, by rw [hv, hcm]⟩
              · exact ih hr c hcm
          | error e =>
              rw [hr] at h
              exact absurd h (by simp [Except.map])
      | error e =>
          rw [hv] at h
          exact absurd h (by simp)

/-- C1 (amended): every candidate accepted by `validateSingleCommitMessage`
(and hence every element `validateCommitMessageCandidates` returns) has
`subject.length ≤ 72` and a `type` drawn from the fixed enumeration, and
inputs with a non-enumerated `type` or a blank `subject` are rejected with
an error — but the subject may still end in `'.'`: only one trailing period
is stripped and the over-length truncation appends an ellipsis
(see `C1_counterexample`). -/
theorem C1_candidate_bounds :
    (∀ d c, validateSingleCommitMessage d = .ok c →
        c.subject.length ≤ 72 ∧ c.type ∈ VALID_COMMIT_TYPES)
    ∧ (∀ v ms, validateCommitMessageCandidates v = .ok ms →
        ∀ c ∈ ms, c.subject.length ≤ 72 ∧ c.type ∈ VALID_COMMIT_TYPES)
    ∧ (∀ fields t, jlookup fields (("type").toList) = some (.str t) →
        ¬ t ∈ VALID_COMMIT_TYPES →
        ∃ e, validateSingleCommitMessage (.obj fields) = .error e)
    ∧ (∀ fields s, jlookup fields (("subject").toList) = some (.str s) → jsTrim s = [] →
        ∃ e, validateSingleCommitMessage (.obj fields) = .error e) := by
  refine ⟨fun d c h => validateSingle_ok h, ?_, ?_, ?_⟩
  · intro v ms h c hc
    unfold validateCommitMessageCandidates at h
    split at h
    · exact absurd h (by simp)
    · split at h
      · split at h
        · exact absurd h (by simp)
        · obtain ⟨d, hd⟩ := validateCandidatesFrom_ok h c hc
          exact validateSingle_ok hd
      · exact absurd h (by simp)
  · intro fields t ht hmem
    unfold validateSingleCommitMessage
    have hf : jsObjFields (.obj fields) = some fields := rfl
    rw [hf]
    dsimp only
    rw [ht]
    dsimp only
    rw [if_neg (fun hcon => hmem ((contains_iff_mem VALID_COMMIT_TYPES t).mp hcon))]
    exact ⟨_, rfl⟩
  · intro fields s hs htrim
    unfold validateSingleCommitMessage
    have hf : jsObjFields (.obj fields) = some fields := rfl
    rw [hf]
    dsimp only
    cases ht : jlookup fields (("type").toList) with
    | none => exact ⟨_, rfl⟩
    | some j =>
        cases j with
        | str t =>
            dsimp only
            by_cases hcon : VALID_COMMIT_TYPES.contains t = true
            · rw [if_pos hcon, hs]
              dsimp only
              rw [if_pos (by rw [htrim]; rfl)]
              exact ⟨_, rfl⟩
            · rw [if_neg hcon]
              exact ⟨_, rfl⟩
        | num n => exact ⟨_, rfl⟩
        | bool b => exact ⟨_, rfl⟩
        | null => exact ⟨_, rfl⟩
        | arr xs => exact ⟨_, rfl⟩
        | obj o => exact ⟨_, rfl⟩

/-- The claim as stated is false at a concrete input: the model output
`{type: "fix", subject: "Fix bug.."}` is accepted and the returned
candidate's subject `"fix bug."` ends with `'.'` — only a single trailing
period is stripped. -/
theorem C1_counterexample :
    validateCommitMessageCandidates (.obj [(("candidates").toList,
        .arr [.obj [(("type").toList, .str (("fix").toList)),
                    (("subject").toList, .str (("Fix bug..").toList))]])])
      = .ok [⟨("fix").toList, none, ("fix bug.").toList⟩]
    ∧ (("fix bug.").toList).getLast? = some '.' := by
  exact ⟨rfl, rfl⟩

/-- Closed instance of `C1_candidate_bounds`: the spec's own scenario
candidate is accepted with the bounds satisfied. -/
theorem C1_candidate_bounds_witness :
    ((⟨("feat").toList, some (("auth").toList), ("add login").toList⟩ :
        CommitMessage).subject.length ≤ 72)
    ∧ (⟨("feat").toList, some (("auth").toList), ("add login").toList⟩ :
        CommitMessage).type ∈ VALID_COMMIT_TYPES := by
  exact C1_candidate_bounds.1
    (.obj [(("type").toList, .str (("feat").toList)),
           (("scope").toList, .str (("auth").toList)),
           (("subject").toList, .str (("Add login.").toList))])
    ⟨("feat").toList, some (("auth").toList), ("add login").toList⟩ rfl


/-! ## Diff-section filtering -/

theorem keepSection_eq_true_iff (P : List (List Char)) (s : List Char) :
    keepSection P s = true ↔
      jsTrim s ≠ [] ∧ (parseDiffPath s = none ∨
        ∃ p, parseDiffPath s = some p ∧ shouldExcludeFile p P = false) := by
  unfold keepSection
  by_cases ht : jsTrim s = []
  · rw [if_pos ht]
    simp [ht]
  · rw [if_neg ht]
    cases hp : parseDiffPath s with
    | none => simp [ht]
    | some p =>
        dsimp only
        constructor
        · intro h
          exact ⟨ht, Or.inr ⟨p, rfl, by simpa using h⟩⟩
        · intro hx
          rcases hx.2 with h | h
          · exact absurd h (by simp)
          · obtain ⟨p2, hp2, hex⟩ := h
            have hp3 : p = p2 := Option.some.inj hp2
            subst hp3
            simpa using hex

/-- C4 (amended): with a non-empty diff and non-empty pattern set,
`filterDiffByPatterns` is the concatenation of the kept sections, which form
a subsequence (original order) of the input's sections; no kept section's
parsed path matches the exclusion patterns; every section whose trim is
non-empty and whose path is unparsable or non-matching is kept; and an empty
diff or an empty pattern set returns the input unchanged. (A section that is
entirely whitespace — only possible for a preamble chunk before the first
`diff --git` marker — is dropped even though its path cannot be parsed: see
`C4_counterexample`.) -/
theorem C4_exclusion_completeness (D : List Char) (P : List (List Char)) :
    (D = [] ∨ P = [] → filterDiffByPatterns D P = D)
    ∧ (D ≠ [] → P ≠ [] →
        filterDiffByPatterns D P
            = ((splitDiffSections D).filter (keepSection P)).flatten
          ∧ ((splitDiffSections D).filter (keepSection P)).Sublist (splitDiffSections D)
          ∧ (∀ s ∈ (splitDiffSections D).filter (keepSection P),
              ∀ p, parseDiffPath s = some p → shouldExcludeFile p P = false)
          ∧ (∀ s ∈ splitDiffSections D, jsTrim s ≠ [] →
              (parseDiffPath s = none ∨
                ∃ p, parseDiffPath s = some p ∧ shouldExcludeFile p P = false) →
              s ∈ (splitDiffSections D).filter (keepSection P))) := by
  constructor
  · intro h
    unfold filterDiffByPatterns
    rw [if_pos]
    rcases h with h | h
    · simp [h]
    · simp [h]
  · intro hD hP
    refine ⟨?_, List.filter_sublist _, ?_, ?_⟩
    · unfold filterDiffByPatterns
      rw [if_neg]
      simp [hD, hP]
    · intro s hs p hp
      have hk := (List.mem_filter.mp hs).2
      have := (keepSection_eq_true_iff P s).mp hk
      rcases this.2 with h | h
      · rw [hp] at h
        exact absurd h (by simp)
      · obtain ⟨p2, hp2, hex⟩ := h
        rw [hp] at hp2
        have hp3 : p = p2 := Option.some.inj hp2
        subst hp3
        exact hex
    · intro s hs htrim hcond
      exact List.mem_filter.mpr ⟨hs, (keepSection_eq_true_iff P s).mpr ⟨htrim, hcond⟩⟩

/-- The claim as stated is false at a concrete input: the whitespace-only
input `"\n"` is a section whose path cannot be parsed, yet with a non-empty
pattern set the output is empty — the section is not preserved. -/
theorem C4_counterexample :
    filterDiffByPatterns (['\n']) [(("a").toList)] = [] ∧ (['\n'] : List Char) ≠ [] := by
  exact ⟨rfl, by decide⟩

/-- Closed instance of `C4_exclusion_completeness`: a one-section diff whose
path matches `*.md` filters to the kept-section concatenation (here empty). -/
theorem C4_exclusion_completeness_witness :
    filterDiffByPatterns (("diff --git a/x.md b/x.md\n+1\n").toList) [(("*.md").toList)]
      = ((splitDiffSections (("diff --git a/x.md b/x.md\n+1\n").toList)).filter
          (keepSection [(("*.md").toList)])).flatten := by
  have h := C4_exclusion_completeness (("diff --git a/x.md b/x.md\n+1\n").toList)
    [(("*.md").toList)]
  exact (h.2 (by decide) (by decide)).1


/-! ## Issue references -/

theorem extractIssue_ne_nil {b p issue : List Char}
    (h : extractIssueFromBranch b p = some issue) : issue ≠ [] := by
  unfold extractIssueFromBranch at h
  split at h
  · exact absurd h (by simp)
  · split at h
    · exact absurd h (by simp)
    · split at h
      · exact absurd h (by simp)
      · split at h
        · split at h
          · rename_i hg
            have := Option.some.inj h
            rw [← this]
            assumption
          · split at h
            · rename_i hfull
              have := Option.some.inj h
              rw [← this]
              assumption
            · exact absurd h (by simp)
        · split at h
          · rename_i hfull
            have := Option.some.inj h
            rw [← this]
            assumption
          · exact absurd h (by simp)

/-- C9 (amended): `getIssueReferenceFromBranch` never throws and yields
`none` for an empty branch name, an empty pattern, a pattern the `RegExp`
constructor rejects, or a non-matching pattern; when an issue token is
extracted, the result is the prefix concatenated with the token — except
that a token already starting with the prefix (case-insensitively) is
returned as-is (see `C9_counterexample`); the spec scenario
`feature/123-add-login` / `feature/(\d+)` / `#` yields `#123`. -/
theorem C9_issue_reference (b p pre : List Char) :
    (b = [] → getIssueReferenceFromBranch b p pre = none)
    ∧ (p = [] → getIssueReferenceFromBranch b p pre = none)
    ∧ (parseJsRegex p = none → getIssueReferenceFromBranch b p pre = none)
    ∧ (extractIssueFromBranch b p = none → getIssueReferenceFromBranch b p pre = none)
    ∧ (∀ issue, extractIssueFromBranch b p = some issue →
        getIssueReferenceFromBranch b p pre =
          some (if pre ≠ [] ∧ (jsToUpper pre).isPrefixOf (jsToUpper issue)
                then issue else pre ++ issue))
    ∧ getIssueReferenceFromBranch (("feature/123-add-login").toList)
        (("feature/(\\d+)").toList) (("#").toList) = some (("#123").toList) := by
  refine ⟨?_, ?_, ?_, ?_, ?_, rfl⟩
  · intro hb
    unfold getIssueReferenceFromBranch extractIssueFromBranch
    rw [if_pos (by simp [hb])]
  · intro hp
    unfold getIssueReferenceFromBranch extractIssueFromBranch
    rw [if_pos (by simp [hp])]
  · intro hparse
    unfold getIssueReferenceFromBranch extractIssueFromBranch
    by_cases hc : (b = [] || p = []) = true
    · rw [if_pos hc]
    · rw [if_neg hc, hparse]
  · intro hext
    unfold getIssueReferenceFromBranch
    rw [hext]
  · intro issue hext
    unfold getIssueReferenceFromBranch
    rw [hext]
    have hne := extractIssue_ne_nil hext
    dsimp only
    rw [if_neg hne]
    unfold formatIssueReference
    rw [if_neg hne]

/-- The claim as stated is false at a concrete input: branch
`JIRA-456-fix-bug`, pattern `(JIRA-\d+)`, prefix `JIRA-` extracts the
capture `JIRA-456`, and the function returns it as-is rather than the
prefix concatenated with the capture (`JIRA-JIRA-456`). -/
theorem C9_counterexample :
    extractIssueFromBranch (("JIRA-456-fix-bug").toList) (("(JIRA-\\d+)").toList)
        = some (("JIRA-456").toList)
    ∧ getIssueReferenceFromBranch (("JIRA-456-fix-bug").toList) (("(JIRA-\\d+)").toList)
        (("JIRA-").toList) = some (("JIRA-456").toList)
    ∧ ("JIRA-456").toList ≠ (("JIRA-").toList) ++ (("JIRA-456").toList) := by
  exact ⟨rfl, rfl, by decide⟩

/-- Closed instance of `C9_issue_reference`: the invalid pattern `(` is
rejected by the regex constructor and the feature degrades to `none`. -/
theorem C9_issue_reference_witness :
    getIssueReferenceFromBranch (("feature/1").toList) (("(").toList) (("#").toList) = none := by
  exact (C9_issue_reference (("feature/1").toList) (("(").toList) (("#").toList)).2.2.1 rfl


/-! ## Masking idempotence -/

set_option maxRecDepth 100000 in
/-- The claim as stated is false at a concrete input: masking
`://u:p@1.2.3.4:q@5.6.7.8` replaces `u:p@` with `[CREDENTIALS]@`, and on a
second pass the embedded-credentials rule matches the combined span
`[CREDENTIALS]@1.2.3.4:q@` (its `[^:]+:[^@]+@` crosses the placeholder),
masking further text: the second pass output `://[CREDENTIALS]@5.6.7.8`
differs from the first. -/
theorem C3_counterexample :
    maskSensitiveInfo (maskSensitiveInfo (("://u:p@1.2.3.4:q@5.6.7.8").toList))
      ≠ maskSensitiveInfo (("://u:p@1.2.3.4:q@5.6.7.8").toList) := by decide

set_option maxRecDepth 100000 in
/-- C3 (amended): `maskSensitiveInfo` is not idempotent in general (see
`C3_counterexample`), but each replacement token of the rule table is on its
own a fixed point of the masker — a placeholder alone never matches any mask
rule in a way that changes the text. -/
theorem C3_placeholders_fixed :
    MASK_PATTERNS.all (fun pr => maskSensitiveInfo pr.2 == pr.2) = true := by decide

end AiCommitMsg
